import Mathlib

/-!
Shallow embedding of the 4AxisMilling core pipeline
(src/fouraxis/fouraxis.cpp, src/methods/faf/faf_visibilitycheck.cpp,
src/unnamed/part_000 = faf_frequencies.cpp) and proofs about it.

Modelling conventions:
* C++ `double` values are modelled as exact rationals (`ℚ`).
* `cg3::EigenMesh` is a vertex list, a face list (vertex index triples) and a
  cached per-face unit-normal list (cg3 stores face normals with the mesh;
  `mesh.faceNormal(f)` reads the cache).
* `cg3::Array2D<int>` visibility matrices hold only 0/1 in this code base and
  are modelled as `Nat → Nat → Bool` with functional update.
* External cg3/libigl collaborators (AABB trees, `triangleOverlap`, rotation by
  a fixed matrix, adjacency extraction) are parameters of the embedded
  functions, exactly at the call boundary the source uses them.
* `cos(heightfieldAngle)` is computed once by the source and used only as a
  threshold; the embedding takes the threshold (`heightfieldLimit`) directly.
-/

namespace FAF

/-- Component-wise rational 3D point / vector (`cg3::Pointd` / `cg3::Vec3`). -/
structure Point3 where
  x : ℚ
  y : ℚ
  z : ℚ
deriving DecidableEq, Repr

instance : Add Point3 := ⟨fun a b => ⟨a.x + b.x, a.y + b.y, a.z + b.z⟩⟩

instance : Sub Point3 := ⟨fun a b => ⟨a.x - b.x, a.y - b.y, a.z - b.z⟩⟩

instance : Neg Point3 := ⟨fun a => ⟨-a.x, -a.y, -a.z⟩⟩

/-- Scalar multiple of a point (`q * p` / `p / c` in cg3). -/
def Point3.scale (q : ℚ) (p : Point3) : Point3 := ⟨q * p.x, q * p.y, q * p.z⟩

/-- Dot product (`cg3::Vec3::dot`). -/
def Point3.dot (a b : Point3) : ℚ := a.x * b.x + a.y * b.y + a.z * b.z

/-- Cross product (`cg3::Vec3::cross`). -/
def Point3.cross (a b : Point3) : Point3 :=
  ⟨a.y * b.z - a.z * b.y, a.z * b.x - a.x * b.z, a.x * b.y - a.y * b.x⟩

/-- The zero vector. -/
def Point3.zero : Point3 := ⟨0, 0, 0⟩

/-- Rational 2D point (`cg3::Point2d`). -/
structure Point2 where
  x : ℚ
  y : ℚ
deriving DecidableEq, Repr

/-- A 2D triangle (`cg3::Triangle2d`), used by the projection strategy. -/
structure Tri2 where
  a : Point2
  b : Point2
  c : Point2
deriving DecidableEq, Repr

/-- Mesh model for `cg3::EigenMesh`: vertices, faces (vertex index triples) and
the cached face normals the C++ mesh stores alongside the faces. -/
structure Mesh where
  vertices : List Point3
  faces : List (Nat × Nat × Nat)
  normals : List Point3
deriving DecidableEq, Repr

/-- Vertex accessor (`mesh.getVertex(i)` / `mesh.vertex(i)`). -/
def Mesh.vertex (m : Mesh) (i : Nat) : Point3 := m.vertices.getD i Point3.zero

/-- Face accessor (`mesh.getFace(i)` / `mesh.face(i)`). -/
def Mesh.face (m : Mesh) (i : Nat) : Nat × Nat × Nat := m.faces.getD i (0, 0, 0)

/-- Cached face normal accessor (`mesh.getFaceNormal(i)` / `mesh.faceNormal(i)`). -/
def Mesh.faceNormal (m : Mesh) (i : Nat) : Point3 := m.normals.getD i Point3.zero

/-- Number of faces (`mesh.getNumberFaces()` / `mesh.numberFaces()`). -/
def Mesh.numberFaces (m : Mesh) : Nat := m.faces.length

/-- Number of vertices (`mesh.getNumberVertices()`). -/
def Mesh.numberVertices (m : Mesh) : Nat := m.vertices.length

/-- Vertex update (`mesh.setVertex(i, p)`). -/
def Mesh.setVertex (m : Mesh) (i : Nat) (p : Point3) : Mesh :=
  { m with vertices := m.vertices.set i p }

/-- Barycenter of face `i`: `(v1 + v2 + v3) / 3` as in the source. -/
def Mesh.barycenter (m : Mesh) (i : Nat) : Point3 :=
  let f := m.face i
  Point3.scale (1 / 3) (m.vertex f.1 + m.vertex f.2.1 + m.vertex f.2.2)

/-- Minimum z coordinate of the bounding box (`mesh.boundingBox().minZ()`). -/
def Mesh.bboxMinZ (m : Mesh) : ℚ :=
  match m.vertices with
  | [] => 0
  | v :: vs => vs.foldl (fun acc p => min acc p.z) v.z

/-- Maximum z coordinate of the bounding box (`mesh.boundingBox().maxZ()`). -/
def Mesh.bboxMaxZ (m : Mesh) : ℚ :=
  match m.vertices with
  | [] => 0
  | v :: vs => vs.foldl (fun acc p => max acc p.z) v.z

/-- Minimum y coordinate of the bounding box (`mesh.getBoundingBox().minY()`). -/
def Mesh.bboxMinY (m : Mesh) : ℚ :=
  match m.vertices with
  | [] => 0
  | v :: vs => vs.foldl (fun acc p => min acc p.y) v.y

/-- Maximum y coordinate of the bounding box (`mesh.getBoundingBox().maxY()`). -/
def Mesh.bboxMaxY (m : Mesh) : ℚ :=
  match m.vertices with
  | [] => 0
  | v :: vs => vs.foldl (fun acc p => max acc p.y) v.y

/-- Well-formed mesh: every face refers to existing vertices and there is at
least one vertex (so the bounding box of the C++ mesh is meaningful). -/
def Mesh.WF (m : Mesh) : Prop :=
  (∀ fc ∈ m.faces, fc.1 < m.vertices.length ∧ fc.2.1 < m.vertices.length ∧
    fc.2.2 < m.vertices.length) ∧ m.vertices ≠ []

/-- Visibility matrix model for `cg3::Array2D<int>`: entry `(d, f)` is `true`
exactly when the C++ entry `visibility(d, f)` is `1` (only 0/1 are ever
stored by this code base). Sizes are carried separately by the callers. -/
def Vis : Type := Nat → Nat → Bool

/-- Write `visibility(d, f) = 1`. -/
def Vis.set (v : Vis) (d f : Nat) : Vis :=
  fun d2 f2 => if d2 = d ∧ f2 = f then true else v d2 f2

/-- Write `visibility(d, f) = 1` where `f` is a C++ `int` index. A negative
index is out of bounds in the C++ `Array2D` (undefined behaviour); the model
leaves the matrix unchanged there, and claim C10 shows the negative case is
unreachable under the stated precondition. -/
def Vis.setI (v : Vis) (d : Nat) (f : Int) : Vis :=
  if 0 ≤ f then v.set d f.toNat else v

/-- The all-zero visibility matrix (`visibility.fill(0)`). -/
def Vis.empty : Vis := fun _ _ => false

/-! ### Extreme-face selection (`FourAxisFabrication::cutExtremes`, fouraxis.cpp) -/

/-- Strict lexicographic order on points, the behaviour of `cg3::Pointd`
`operator<` (compare x, then y, then z). -/
def Point3.lexLt (p q : Point3) : Prop :=
  p.x < q.x ∨ (p.x = q.x ∧ (p.y < q.y ∨ (p.y = q.y ∧ p.z < q.z)))

instance (p q : Point3) : Decidable (p.lexLt q) := by
  unfold Point3.lexLt
  exact inferInstance

/-- Centroid of a face used by the sort (`(v1 + v2 + v3) / 3` on the face's
vertices), identical to `Mesh.barycenter` but named after the comparator. -/
def triangleCentroid (m : Mesh) (f : Nat) : Point3 := m.barycenter f

/-- The comparator `triangleComparator` of fouraxis.cpp: centroids compared
with `cg3::Pointd::operator<` (lexicographic). -/
def triangleComparator (m : Mesh) (f1 f2 : Nat) : Prop :=
  (triangleCentroid m f1).lexLt (triangleCentroid m f2)

instance (m : Mesh) (f1 f2 : Nat) : Decidable (triangleComparator m f1 f2) := by
  unfold triangleComparator
  exact inferInstance

/-- The face index array after `std::sort(fIndices.begin(), fIndices.end(),
triangleComparator(m))`: a sorted rearrangement of `0, ..., numberFaces - 1`
with respect to the strict weak order `triangleComparator`. -/
def sortedFaceIndices (m : Mesh) : List Nat :=
  List.insertionSort (fun f1 f2 => ¬ triangleComparator m f2 f1)
    (List.range m.numberFaces)

/-- Machine epsilon of `double` (`std::numeric_limits<double>::epsilon()`). -/
def dblEps : ℚ := 1 / 2 ^ 52

/-- Direction `(-1, 0, 0)` (`minuxX` in the source). -/
def minusX : Point3 := ⟨-1, 0, 0⟩

/-- Direction `(1, 0, 0)` (`plusX` in the source). -/
def plusX : Point3 := ⟨1, 0, 0⟩

/-- Continuation condition of the first `while` loop of `cutExtremes`:
`m.getFaceNormal(f).dot(minuxX) >= -epsilon`. -/
def minWalkCond (m : Mesh) (f : Nat) : Bool :=
  decide (-dblEps ≤ (m.faceNormal f).dot minusX)

/-- Continuation condition of the second `while` loop of `cutExtremes`:
`m.getFaceNormal(f).dot(plusX) >= -epsilon`. -/
def maxWalkCond (m : Mesh) (f : Nat) : Bool :=
  decide (-dblEps ≤ (m.faceNormal f).dot plusX)

/-- One unchecked index walk of `cutExtremes`: push faces while the condition
holds, advancing the index. The loops have no bound check, so exhausting the
list models the out-of-bounds access `fIndices[fIndices.size()]` (or the
unsigned wrap-around below index 0): the result is `none` in that case. -/
def walkWhile (cond : Nat → Bool) : List Nat → Option (List Nat)
  | [] => none
  | f :: rest =>
    if cond f then Option.map (fun l => f :: l) (walkWhile cond rest)
    else some []

/-- `FourAxisFabrication::cutExtremes`: sort all face indices by centroid, then
walk from the low end while `normal · (-x) ≥ -ε` collecting `minExtreme`, and
from the high end while `normal · (+x) ≥ -ε` collecting `maxExtreme`. -/
def cutExtremes (m : Mesh) : Option (List Nat) × Option (List Nat) :=
  let fIndices := sortedFaceIndices m
  (walkWhile (minWalkCond m) fIndices, walkWhile (maxWalkCond m) fIndices.reverse)

/-! ### Direction-set minimizer (`FourAxisFabrication::minimizeNumberPlanes`) -/

/-- Outcome of the external Gurobi ILP solve: either a 0/1 assignment for the
orientation variables is read back, or a `GRBException` (or any exception) is
thrown before the read-back loop ran. -/
inductive SolveOutcome where
  | success (assignment : List Bool)
  | failure
deriving DecidableEq, Repr

/-- `FourAxisFabrication::minimizeNumberPlanes` (fouraxis.cpp): when Gurobi is
not compiled in (`GUROBI_DEFINED` unset) every orientation index is pushed;
when it is available the indices with solution value 1 are pushed, and a
thrown exception is caught after `survivedPlanes` was cleared, leaving it
empty. The visibility matrix only feeds the solver's constraints. -/
def minimizeNumberPlanes (gurobiDefined : Bool) (outcome : SolveOutcome)
    (nOrientations : Nat) (visibility : Vis) : List Nat :=
  if gurobiDefined then
    match outcome with
    | SolveOutcome.success xs => (List.range nOrientations).filter (fun i => xs.getD i false)
    | SolveOutcome.failure => []
  else
    (List.range nOrientations).foldl (fun acc i => acc ++ [i]) []

/-! ### Non-visible face detection (`internal::detectNonVisibleFaces`,
faf_visibilitycheck.cpp) -/

/-- `internal::detectNonVisibleFaces`: collect every face whose visibility
column (over all `sizeX` direction rows) holds no 1. The matrix itself is only
read. -/
def detectNonVisibleFaces (sizeX sizeY : Nat) (visibility : Vis) : List Nat :=
  (List.range sizeY).filter
    (fun faceId => ¬ (List.range sizeX).any (fun i => visibility i faceId))

/-! ### Legacy visibility check (`FourAxisFabrication::checkPlane` and
`checkVisibilityAllPlanes`, fouraxis.cpp) -/

/-- `FourAxisFabrication::maxYFace`: among the intersected faces, the one whose
second vertex (`getFace(i).y()`) has the largest y coordinate. -/
def maxYFace (m : Mesh) (list : List Nat) : Nat :=
  list.foldl
    (fun mx i =>
      if (m.vertex (m.face mx).2.1).y < (m.vertex (m.face i).2.1).y then i else mx)
    (list.headD 0)

/-- `FourAxisFabrication::minYFace`: among the intersected faces, the one whose
second vertex has the smallest y coordinate. -/
def minYFace (m : Mesh) (list : List Nat) : Nat :=
  list.foldl
    (fun mn i =>
      if (m.vertex (m.face i).2.1).y < (m.vertex (m.face mn).2.1).y then i else mn)
    (list.headD 0)

/-- `FourAxisFabrication::checkPlane`: for every face, shoot the vertical
(y-axis) line through its barycenter into the AABB tree (modelled by the
`intersect` oracle); if it hits anything, mark the topmost hit visible from
plane `indexPlane` and the bottommost hit visible from the opposite plane. -/
def checkPlane (intersect : Mesh → Point3 → Point3 → List Nat) (m : Mesh)
    (indexPlane numberPlanes : Nat) (visibility : Vis) : Vis :=
  let maxY := m.bboxMaxY + 50
  let minY := m.bboxMinY - 50
  (List.range m.numberFaces).foldl
    (fun v i =>
      let bar := m.barycenter i
      let blackList := intersect m ⟨bar.x, maxY, bar.z⟩ ⟨bar.x, minY, bar.z⟩
      if blackList.length > 0 then
        (v.set indexPlane (maxYFace m blackList)).set (numberPlanes + indexPlane)
          (minYFace m blackList)
      else v)
    visibility

/-- The per-plane loop of `checkVisibilityAllPlanes`: run `checkPlane` for each
plane index on the incrementally rotated mesh (`rotateStep` models the cg3
rotation by the fixed step matrix). -/
def checkVisibilityAllPlanesScan (intersect : Mesh → Point3 → Point3 → List Nat)
    (rotateStep : Mesh → Mesh) (m : Mesh) (numberPlanes : Nat) : Vis :=
  ((List.range numberPlanes).foldl
    (fun (st : Mesh × Vis) i =>
      (rotateStep st.1, checkPlane intersect st.1 i numberPlanes st.2))
    (m, Vis.empty)).2

/-- The final loop of `checkVisibilityAllPlanes` (fouraxis.cpp lines 134-142):
for every face column holding no 1, force the entry of the LAST row to 1. -/
def forceLastRow (sizeX sizeY : Nat) (visibility : Vis) : Vis :=
  (List.range sizeY).foldl
    (fun v j =>
      if (List.range sizeX).any (fun i => v i j) then v else v.set (sizeX - 1) j)
    visibility

/-- `FourAxisFabrication::checkVisibilityAllPlanes`: the per-plane scan over
`numberPlanes*2 + 1` rows followed by the forcing pass on all-zero columns. -/
def checkVisibilityAllPlanes (intersect : Mesh → Point3 → Point3 → List Nat)
    (rotateStep : Mesh → Mesh) (m : Mesh) (numberPlanes : Nat) : Vis :=
  forceLastRow (numberPlanes * 2 + 1) m.numberFaces
    (checkVisibilityAllPlanesScan intersect rotateStep m numberPlanes)

/-! ### Projection visibility strategy (`internal::getVisibilityProjectionOnZ`,
faf_visibilitycheck.cpp) -/

/-- Projection of face `faceId` onto the z = 0 plane: the three vertices with
their z coordinates dropped, as built inline by the per-face routine. The
subsequent `cg3::sortTriangle2DPointsAndReorderCounterClockwise` call only
canonicalizes the representation handed to the external overlap test and is
absorbed into the `overlap` oracle. -/
def projectFace (m : Mesh) (faceId : Nat) : Tri2 :=
  let f := m.face faceId
  let v1 := m.vertex f.1
  let v2 := m.vertex f.2.1
  let v3 := m.vertex f.2.2
  ⟨⟨v1.x, v1.y⟩, ⟨v2.x, v2.y⟩, ⟨v3.x, v3.y⟩⟩

/-- State of one projection sweep: the triangles inserted so far into the 2D
AABB tree, and the visibility matrix. -/
structure ProjState where
  tree : List Tri2
  vis : Vis

/-- The per-face routine `internal::getVisibilityProjectionOnZ(mesh, faceId,
directionIndex, direction, aabbTree, visibility, heightfieldAngle)`: if the
face passes the heightfield test against the query direction, check its
projected triangle against every triangle already in the tree (the external
`cg3::triangleOverlap` is the `overlap` oracle); when no overlap is found mark
the face visible and insert its projection. -/
def getVisibilityProjectionOnZFace (overlap : Tri2 → Tri2 → Bool) (m : Mesh)
    (faceId dirIndex : Nat) (direction : Point3) (heightfieldLimit : ℚ)
    (st : ProjState) : ProjState :=
  if heightfieldLimit ≤ direction.dot (m.faceNormal faceId) then
    let t := projectFace m faceId
    if st.tree.any (fun t2 => overlap t t2) then st
    else ⟨t :: st.tree, st.vis.set dirIndex faceId⟩
  else st

/-- One full back-to-front sweep over a face list from a fixed direction. -/
def projSweep (overlap : Tri2 → Tri2 → Bool) (m : Mesh) (dirIndex : Nat)
    (direction : Point3) (heightfieldLimit : ℚ) (faceList : List Nat)
    (st : ProjState) : ProjState :=
  faceList.foldl
    (fun s faceId =>
      getVisibilityProjectionOnZFace overlap m faceId dirIndex direction
        heightfieldLimit s)
    st

/-- Minimum vertex z coordinate of a face, the key of
`internal::TriangleZComparator`. -/
def faceMinZ (m : Mesh) (f : Nat) : ℚ :=
  let fc := m.face f
  min (min (m.vertex fc.1).z (m.vertex fc.2.1).z) (m.vertex fc.2.2).z

/-- The face list ordered by `TriangleZComparator` (ascending minimum vertex
z), the model of `std::sort(orderedZFaces.begin(), orderedZFaces.end(), ...)`. -/
def orderedZFaces (m : Mesh) (faceList : List Nat) : List Nat :=
  List.insertionSort (fun f1 f2 => ¬ faceMinZ m f2 < faceMinZ m f1) faceList

/-- `(0, 0, 1)`, `zDirMax` in the source. -/
def zDirMax : Point3 := ⟨0, 0, 1⟩

/-- `(0, 0, -1)`, `zDirMin` in the source. -/
def zDirMin : Point3 := ⟨0, 0, -1⟩

/-- The outer projection routine `internal::getVisibilityProjectionOnZ(mesh,
faces, directionIndex, oppositeDirectionIndex, visibility, heightfieldAngle)`:
sort the faces by minimum vertex z, sweep them from the top down against
`(0,0,1)` into row `directionIndex` with a fresh tree, and, when the opposite
index is non-negative, sweep bottom-up against `(0,0,-1)` into row
`oppositeDirectionIndex` with a second fresh tree. -/
def getVisibilityProjectionOnZ (overlap : Tri2 → Tri2 → Bool) (m : Mesh)
    (faceList : List Nat) (dirIndex : Nat) (oppIndex : Int)
    (heightfieldLimit : ℚ) (visibility : Vis) : Vis :=
  let ordered := orderedZFaces m faceList
  let stMax := projSweep overlap m dirIndex zDirMax heightfieldLimit
    ordered.reverse ⟨[], visibility⟩
  if 0 ≤ oppIndex then
    (projSweep overlap m oppIndex.toNat zDirMin heightfieldLimit ordered
      ⟨[], stMax.vis⟩).vis
  else stMax.vis

/-! ### Ray-shooting visibility strategy
(`internal::getVisibilityRayShootingOnZ`, faf_visibilitycheck.cpp) -/

/-- Accumulator of the intersection scan of one centroid ray: the face with the
highest barycenter z seen so far that passes the heightfield test from
`(0,0,1)` (index `-1` while none), and the analogous lowest face for
`(0,0,-1)`. -/
structure RayAcc where
  maxZFace : Int
  maxZCoordinate : ℚ
  minZFace : Int
  minZCoordinate : ℚ
deriving DecidableEq, Repr

/-- The body of the scan over `barIntersection` in
`getVisibilityRayShootingOnZ`: update the best max-z face passing the
heightfield test from `(0,0,1)`, and, when an opposite direction index is
present, the best min-z face from `(0,0,-1)`. -/
def rayScanStep (m : Mesh) (heightfieldLimit : ℚ) (oppIndex : Int)
    (acc : RayAcc) (intersectedFace : Nat) : RayAcc :=
  let bz := (m.barycenter intersectedFace).z
  let acc1 :=
    if acc.maxZCoordinate < bz ∧
        heightfieldLimit ≤ zDirMax.dot (m.faceNormal intersectedFace) then
      { acc with maxZFace := Int.ofNat intersectedFace, maxZCoordinate := bz }
    else acc
  if 0 ≤ oppIndex then
    if bz < acc1.minZCoordinate ∧
        heightfieldLimit ≤ zDirMin.dot (m.faceNormal intersectedFace) then
      { acc1 with minZFace := Int.ofNat intersectedFace, minZCoordinate := bz }
    else acc1
  else acc1

/-- The scan over `barIntersection` in `getVisibilityRayShootingOnZ`:
`minZ`/`maxZ` are the initial coordinates (`bbox.minZ()-1` / `bbox.maxZ()+1`)
and the face indices start at `-1`. -/
def rayScan (m : Mesh) (heightfieldLimit minZ maxZ : ℚ) (oppIndex : Int)
    (barIntersection : List Nat) : RayAcc :=
  barIntersection.foldl (rayScanStep m heightfieldLimit oppIndex) ⟨-1, minZ, -1, maxZ⟩

/-- The per-face body of `getVisibilityRayShootingOnZ`: shoot the vertical
segment through the barycenter of `faceIndex` into the AABB tree of the mesh
(the `intersect` oracle), scan the hits, then write
`visibility(directionIndex, maxZFace) = 1` and, when the opposite index is
non-negative, `visibility(oppositeDirectionIndex, minZFace) = 1`. The writes
use the C++ `int` indices: a `-1` face index is an out-of-bounds write
(claim C10 concerns exactly this). -/
def getVisibilityRayShootingOnZFace (intersect : Mesh → Point3 → Point3 → List Nat)
    (m : Mesh) (faceIndex dirIndex : Nat) (oppIndex : Int)
    (heightfieldLimit minZ maxZ : ℚ) (visibility : Vis) : Vis :=
  let bar := m.barycenter faceIndex
  let barIntersection := intersect m ⟨bar.x, bar.y, maxZ⟩ ⟨bar.x, bar.y, minZ⟩
  let acc := rayScan m heightfieldLimit minZ maxZ oppIndex barIntersection
  let v1 := visibility.setI dirIndex acc.maxZFace
  if 0 ≤ oppIndex then v1.setI oppIndex.toNat acc.minZFace else v1

/-- The outer ray-shooting routine `internal::getVisibilityRayShootingOnZ(mesh,
faces, directionIndex, oppositeDirectionIndex, visibility, heightfieldAngle)`:
compute the padded bounding-box z range once, then process every target face. -/
def getVisibilityRayShootingOnZ (intersect : Mesh → Point3 → Point3 → List Nat)
    (m : Mesh) (faceList : List Nat) (dirIndex : Nat) (oppIndex : Int)
    (heightfieldLimit : ℚ) (visibility : Vis) : Vis :=
  let minZ := m.bboxMinZ - 1
  let maxZ := m.bboxMaxZ + 1
  faceList.foldl
    (fun v faceIndex =>
      getVisibilityRayShootingOnZFace intersect m faceIndex dirIndex oppIndex
        heightfieldLimit minZ maxZ v)
    visibility

/-! ### Direction loop (`internal::computeVisibilityProjectionRay`,
faf_visibilitycheck.cpp) -/

/-- Pointwise update of a direction table. -/
def updDir (g : Nat → Point3) (i : Nat) (p : Point3) : Nat → Point3 :=
  fun j => if j = i then p else g j

/-- Result of the direction loop: the direction table and the visibility
matrix (sizes: `nDirections/2 * 2 + 2` rows, `numberFaces` columns). -/
structure PRRun where
  directions : Nat → Point3
  vis : Vis

/-- `internal::computeVisibilityProjectionRay`: for each of the
`halfNDirections` steps, run the selected strategy (`modeRay` selects ray
shooting over projection) on the incrementally rotated mesh for the direction
pair `(dirIndex, halfNDirections + dirIndex)`, record the two opposite
directions, then rotate the mesh by the inverse step matrix (`rotateStep`) and
the direction vector by the step matrix (`rotateVec`), both external cg3
rotations. Afterwards set the extreme directions `(-1,0,0)` / `(1,0,0)`; when
`includeXDirections` is set run the strategy once more on the mesh rotated by
pi/2 around y (`rotateY90`), otherwise pre-seed the extreme rows from the
provided extreme face sets. -/
def computeVisibilityProjectionRay (overlap : Tri2 → Tri2 → Bool)
    (intersect : Mesh → Point3 → Point3 → List Nat)
    (rotateStep : Mesh → Mesh) (rotateVec : Point3 → Point3)
    (rotateY90 : Mesh → Mesh) (mesh : Mesh) (nDirections : Nat)
    (heightfieldLimit : ℚ) (includeXDirections : Bool)
    (minExtremes maxExtremes : List Nat) (modeRay : Bool) : PRRun :=
  let halfNDirections := nDirections / 2
  let targetFaces := List.range mesh.numberFaces
  let runDir := fun (rm : Mesh) (dirIndex : Nat) (oppIndex : Int) (v : Vis) =>
    if modeRay then
      getVisibilityRayShootingOnZ intersect rm targetFaces dirIndex oppIndex
        heightfieldLimit v
    else
      getVisibilityProjectionOnZ overlap rm targetFaces dirIndex oppIndex
        heightfieldLimit v
  let afterLoop :=
    (List.range halfNDirections).foldl
      (fun (st : Mesh × Point3 × (Nat → Point3) × Vis) dirIndex =>
        let v2 := runDir st.1 dirIndex (Int.ofNat (halfNDirections + dirIndex)) st.2.2.2
        let dirs2 := updDir (updDir st.2.2.1 dirIndex st.2.1)
          (halfNDirections + dirIndex) (-st.2.1)
        (rotateStep st.1, rotateVec st.2.1, dirs2, v2))
      (mesh, ⟨0, 0, 1⟩, (fun _ => Point3.zero), Vis.empty)
  let minIndex := halfNDirections * 2
  let maxIndex := halfNDirections * 2 + 1
  let dirs3 := updDir (updDir afterLoop.2.2.1 minIndex ⟨-1, 0, 0⟩) maxIndex ⟨1, 0, 0⟩
  if includeXDirections then
    let rm := rotateY90 mesh
    ⟨dirs3, runDir rm minIndex (Int.ofNat maxIndex) afterLoop.2.2.2⟩
  else
    let v3 := minExtremes.foldl (fun v faceId => v.set minIndex faceId) afterLoop.2.2.2
    let v4 := maxExtremes.foldl (fun v faceId => v.set maxIndex faceId) v3
    ⟨dirs3, v4⟩

/-- `FourAxisFabrication::getVisibility` for the projection / ray-shooting
modes: run `computeVisibilityProjectionRay` and then
`internal::detectNonVisibleFaces` on the resulting matrix (its row count is
`nDirections/2 * 2 + 2`). Output: directions, visibility, non-visible faces. -/
def getVisibility (overlap : Tri2 → Tri2 → Bool)
    (intersect : Mesh → Point3 → Point3 → List Nat)
    (rotateStep : Mesh → Mesh) (rotateVec : Point3 → Point3)
    (rotateY90 : Mesh → Mesh) (mesh : Mesh) (nDirections : Nat)
    (heightfieldLimit : ℚ) (includeXDirections : Bool)
    (minExtremes maxExtremes : List Nat) (modeRay : Bool) :
    PRRun × List Nat :=
  let run := computeVisibilityProjectionRay overlap intersect rotateStep rotateVec
    rotateY90 mesh nDirections heightfieldLimit includeXDirections minExtremes
    maxExtremes modeRay
  (run, detectNonVisibleFaces (nDirections / 2 * 2 + 2) mesh.numberFaces run.vis)

/-! ### Frequency restoration (faf_frequencies.cpp = src/unnamed/part_000) -/

/-- The `Data` aggregate fields threaded through restoration
(`FourAxisFabrication::Data`). -/
structure Data where
  directions : List Point3
  association : List Nat
  visibility : Vis
  nonVisibleFaces : List Nat
  minExtremes : List Nat
  maxExtremes : List Nat
  restoredMesh : Mesh
  restoredMeshAssociation : List Nat
  restoredMeshVisibility : Vis
  restoredMeshNonVisibleFaces : List Nat

/-- `internal::computeDifferentialCoordinates`: for every vertex, the sum of
`currentPoint - neighbor` over its 1-ring, divided by the neighbor count. -/
def computeDifferentialCoordinates (m : Mesh) (vertexVertexAdjacencies : List (List Nat)) :
    List Point3 :=
  (List.range m.numberVertices).map
    (fun vId =>
      let neighbors := vertexVertexAdjacencies.getD vId []
      let delta := neighbors.foldl
        (fun acc neighborId => acc + (m.vertex vId - m.vertex neighborId))
        Point3.zero
      Point3.scale (1 / (neighbors.length : ℚ)) delta)

/-- `internal::getTargetPoint`: differential coordinate of the vertex plus the
centroid of its current neighbor positions. -/
def getTargetPoint (m : Mesh) (differentialCoordinates : List Point3) (vId : Nat)
    (vertexVertexAdjacencies : List (List Nat)) : Point3 :=
  let neighbors := vertexVertexAdjacencies.getD vId []
  let delta := neighbors.foldl (fun acc neighborId => acc + m.vertex neighborId)
    Point3.zero
  differentialCoordinates.getD vId Point3.zero +
    Point3.scale (1 / (neighbors.length : ℚ)) delta

/-- Exact decision of `(v / norm(v)) · dir ≥ limit` without leaving ℚ, where
`v` is the unnormalized cross product the code normalizes
(`cg3::Triangle3Dd::normal()`): with `d = v · dir` and `s = v · v`, the
inequality `d ≥ limit * sqrt s` holds iff `0 ≤ d ∧ limit^2 * s ≤ d^2` when
`0 ≤ limit`, and iff `0 ≤ d ∨ d^2 ≤ limit^2 * s` when `limit < 0`. -/
def unitDotGe (v dir : Point3) (limit : ℚ) : Bool :=
  let d := v.dot dir
  let s := v.dot v
  if 0 ≤ limit then decide (0 ≤ d) && decide (limit ^ 2 * s ≤ d ^ 2)
  else decide (0 ≤ d) || decide (d ^ 2 ≤ limit ^ 2 * s)

/-- `internal::isHeightFieldValid`: for every face incident to `vId`, rebuild
the triangle with the candidate point substituted for `vId`, take its (unit)
normal, and require its dot product with the face's associated direction to be
at least `cos(heightfieldAngle)` (`heightfieldLimit` here). -/
def isHeightFieldValid (m : Mesh) (data : Data) (vId : Nat) (newPoint : Point3)
    (vertexFaceAdjacencies : List (List Nat)) (heightfieldLimit : ℚ) : Bool :=
  (vertexFaceAdjacencies.getD vId []).all
    (fun fId =>
      let face := m.face fId
      let p1 := if face.1 = vId then newPoint else m.vertex face.1
      let p2 := if face.1 ≠ vId ∧ face.2.1 = vId then newPoint else m.vertex face.2.1
      let p3 := if face.1 ≠ vId ∧ face.2.1 ≠ vId then newPoint else m.vertex face.2.2
      let faceNormal := Point3.cross (p2 - p1) (p3 - p1)
      let associatedDirection := data.directions.getD (data.association.getD fId 0)
        Point3.zero
      unitDotGe faceNormal associatedDirection heightfieldLimit)

/-- `BINARY_SEARCH_ITERATIONS` of faf_frequencies.cpp. -/
def BINARY_SEARCH_ITERATIONS : Nat := 10

/-- The bounded `while` loop of `restoreFrequenciesValidHeightfields`, written
with explicit fuel `BINARY_SEARCH_ITERATIONS - count` (the loop guard is
`!isHeightFieldValid(...) && count < BINARY_SEARCH_ITERATIONS`): halve the
distance to the current point until the candidate validates or the bound is
reached, returning the final candidate and counter. -/
def binarySearchAux (valid : Point3 → Bool) (currentPoint : Point3) :
    Nat → Point3 → Nat → Point3 × Nat
  | 0, targetPoint, count => (targetPoint, count)
  | fuel + 1, targetPoint, count =>
    if valid targetPoint then (targetPoint, count)
    else binarySearchAux valid currentPoint fuel
      (Point3.scale (1 / 2) (targetPoint + currentPoint)) (count + 1)

/-- The loop entered with counter `count`: fuel is the remaining attempt
budget. -/
def binarySearchLoop (valid : Point3 → Bool) (currentPoint targetPoint : Point3)
    (count : Nat) : Point3 × Nat :=
  binarySearchAux valid currentPoint (BINARY_SEARCH_ITERATIONS - count)
    targetPoint count

/-- Bundle of the read-only inputs of one restoration sweep. -/
structure RestoreEnv where
  data : Data
  vertexVertexAdjacencies : List (List Nat)
  vertexFaceAdjacencies : List (List Nat)
  differentialCoordinates : List Point3
  heightfieldLimit : ℚ

/-- Validity predicate of candidate positions for vertex `vId` against the
CURRENT mesh, as called inside the loop. -/
def heightfieldValidAt (env : RestoreEnv) (m : Mesh) (vId : Nat) (p : Point3) : Bool :=
  isHeightFieldValid m env.data vId p env.vertexFaceAdjacencies env.heightfieldLimit

/-- The body of the vertex loop of
`internal::restoreFrequenciesValidHeightfields`: compute the target point from
the current mesh, run the bounded binary search, and if the counter stayed
below the bound commit the move into the mesh immediately (`setVertex`),
reporting whether the vertex moved. -/
def restoreVertexStep (env : RestoreEnv) (m : Mesh) (vId : Nat) : Mesh × Bool :=
  let currentPoint := m.vertex vId
  let targetPoint := getTargetPoint m env.differentialCoordinates vId
    env.vertexVertexAdjacencies
  let r := binarySearchLoop (heightfieldValidAt env m vId) currentPoint targetPoint 0
  if r.2 < BINARY_SEARCH_ITERATIONS then (m.setVertex vId r.1, true) else (m, false)

/-- The vertex sweep over a given processing order: fold of
`restoreVertexStep`, accumulating the `aVertexHasMoved` flag. The source runs
it with the order `0, 1, ..., numberVertices - 1`. -/
def restoreSweep (env : RestoreEnv) (m : Mesh) (order : List Nat) : Mesh × Bool :=
  order.foldl
    (fun (acc : Mesh × Bool) vId =>
      let s := restoreVertexStep env acc.1 vId
      (s.1, acc.2 || s.2))
    (m, false)

/-- `internal::restoreFrequenciesValidHeightfields`: one sweep over all
vertices in index order. -/
def restoreFrequenciesValidHeightfields (env : RestoreEnv) (m : Mesh) : Mesh × Bool :=
  restoreSweep env m (List.range m.numberVertices)

/-- Modelled from the spec: the simultaneous-commit sweep the specification
describes (spec 4.6 step 5) — every target point is computed and validated
against the PRE-SWEEP mesh `m`, and the accepted moves are committed together
at the end of the sweep. Stated only to be compared with the source's
`restoreSweep` for the refinement claim C3. -/
def restoreSweepSimultaneous (env : RestoreEnv) (m : Mesh) (order : List Nat) : Mesh :=
  order.foldl
    (fun acc vId =>
      let currentPoint := m.vertex vId
      let targetPoint := getTargetPoint m env.differentialCoordinates vId
        env.vertexVertexAdjacencies
      let r := binarySearchLoop (heightfieldValidAt env m vId) currentPoint
        targetPoint 0
      if r.2 < BINARY_SEARCH_ITERATIONS then acc.setVertex vId r.1 else acc)
    m

/-- `FourAxisFabrication::restoreFrequencies`: compute the differential
coordinates of the original mesh (the adjacency lists come from the external
cg3::libigl calls), iterate the sweep on a copy of the smoothed mesh, refresh
normals and bounding box (`updateNormals`, external), and carry association,
visibility and non-visible set over unchanged into the restored-mesh slots. -/
def restoreFrequencies (updateNormals : Mesh → Mesh)
    (vertexVertexAdjacencies vertexFaceAdjacencies : List (List Nat))
    (iterations : Nat) (heightfieldLimit : ℚ) (originalMesh smoothedMesh : Mesh)
    (data : Data) : Data :=
  let differentialCoordinates := computeDifferentialCoordinates originalMesh
    vertexVertexAdjacencies
  let env : RestoreEnv := ⟨data, vertexVertexAdjacencies, vertexFaceAdjacencies,
    differentialCoordinates, heightfieldLimit⟩
  let targetMesh :=
    (List.range iterations).foldl
      (fun m _ => (restoreFrequenciesValidHeightfields env m).1) smoothedMesh
  { data with
    restoredMesh := updateNormals targetMesh
    restoredMeshAssociation := data.association
    restoredMeshNonVisibleFaces := data.nonVisibleFaces
    restoredMeshVisibility := data.visibility }

/-! ### Post-restoration recheck (`checkVisibilityAfterFrequenciesAreRestored`,
faf_frequencies.cpp) -/

/-- The C++ return expression
`(unsigned int) restoredMeshNonVisibleFaces.size() - nonVisibleFaces.size()`:
the first operand is truncated to 32 bits, the subtraction happens in the
64-bit unsigned `size_t`, and the `unsigned int` return truncates again. -/
def wrapU32 (a b : Nat) : Nat :=
  (((((a : Int) % 2 ^ 32) - (b : Int)) % 2 ^ 64) % 2 ^ 32).toNat

/-- `checkVisibilityAfterFrequenciesAreRestored`: recompute visibility on the
restored mesh with `nDirections = (directions.size() - 2) / 2` and
`includeXDirections = true` (the fresh `Data`'s extreme sets are copied but
unused on that path), store the new matrix, rebuild the restored-mesh
non-visible list as the faces whose ASSOCIATED direction row holds no 1, and
return the unsigned difference of the two non-visible counts. -/
def checkVisibilityAfterFrequenciesAreRestored (overlap : Tri2 → Tri2 → Bool)
    (intersect : Mesh → Point3 → Point3 → List Nat)
    (rotateStep : Mesh → Mesh) (rotateVec : Point3 → Point3)
    (rotateY90 : Mesh → Mesh) (data : Data) (heightfieldLimit : ℚ)
    (modeRay : Bool) : Data × Nat :=
  let targetMesh := data.restoredMesh
  let nDirections := (data.directions.length - 2) / 2
  let run := computeVisibilityProjectionRay overlap intersect rotateStep rotateVec
    rotateY90 targetMesh nDirections heightfieldLimit true data.minExtremes
    data.maxExtremes modeRay
  let restoredNV :=
    (List.range data.restoredMeshAssociation.length).filter
      (fun faceId => run.vis (data.restoredMeshAssociation.getD faceId 0) faceId = false)
  let data2 := { data with
    restoredMeshVisibility := run.vis
    restoredMeshNonVisibleFaces := restoredNV }
  (data2, wrapU32 restoredNV.length data.nonVisibleFaces.length)

/-! ### Concrete instances used by the counterexamples and witnesses -/

/-- The exact quarter turn around the y-axis, `(x, y, z) ↦ (z, y, -x)`:
the matrix `cg3::rotationMatrix(yAxis, M_PI/2)` applies to vertices and
normals. Used to instantiate the `rotateY90` oracle on concrete runs. -/
def rotY90Point (p : Point3) : Point3 := ⟨p.z, p.y, -p.x⟩

/-- Quarter turn of a whole mesh around the y-axis (vertices and cached
normals). -/
def rotY90Mesh (m : Mesh) : Mesh :=
  ⟨m.vertices.map rotY90Point, m.faces, m.normals.map rotY90Point⟩

/-- An empty placeholder mesh for `Data` slots that a run never reads. -/
def meshEmpty : Mesh := ⟨[], [], []⟩

/-- A single unit triangle in the z = 0 plane with upward normal. -/
def meshA : Mesh := ⟨[⟨0, 0, 0⟩, ⟨1, 0, 0⟩, ⟨0, 1, 0⟩], [(0, 1, 2)], [⟨0, 0, 1⟩]⟩

/-- A single unit triangle in the z = 0 plane with upward normal (instance for
the legacy analyzer counterexample). -/
def meshB : Mesh := ⟨[⟨0, 0, 0⟩, ⟨1, 0, 0⟩, ⟨0, 1, 0⟩], [(0, 1, 2)], [⟨0, 0, 1⟩]⟩

/-- Tangent half-angle parameter of a rational unit normal with a tiny
strictly positive x component. -/
def tinyT : ℚ := 1 / 2 ^ 54

/-- The rational unit vector `(2t/(1+t^2), (1-t^2)/(1+t^2), 0)` for
`t = tinyT`: its x component is strictly positive yet below the `double`
epsilon, so the `cutExtremes` min walk keeps going past it. -/
def tinyXNormal : Point3 :=
  ⟨2 * tinyT / (1 + tinyT ^ 2), (1 - tinyT ^ 2) / (1 + tinyT ^ 2), 0⟩

/-- Three disjoint triangles at x = 0, 4, 8 whose unit normals are
`tinyXNormal`, `(-1,0,0)` and `(1,0,0)` respectively. -/
def meshC : Mesh :=
  ⟨[⟨0, 0, 0⟩, ⟨0, 1, 0⟩, ⟨0, 0, 1⟩,
    ⟨4, 0, 0⟩, ⟨4, 1, 0⟩, ⟨4, 0, 1⟩,
    ⟨8, 0, 0⟩, ⟨8, 1, 0⟩, ⟨8, 0, 1⟩],
   [(0, 1, 2), (3, 4, 5), (6, 7, 8)],
   [tinyXNormal, ⟨-1, 0, 0⟩, ⟨1, 0, 0⟩]⟩

/-- Two disjoint triangles at x = 0 and x = 4 with unit normals `(-1,0,0)` and
`(1,0,0)`: each `cutExtremes` walk has a stopping face. -/
def meshD : Mesh :=
  ⟨[⟨0, 0, 0⟩, ⟨0, 1, 0⟩, ⟨0, 0, 1⟩,
    ⟨4, 0, 0⟩, ⟨4, 1, 0⟩, ⟨4, 0, 1⟩],
   [(0, 1, 2), (3, 4, 5)],
   [⟨-1, 0, 0⟩, ⟨1, 0, 0⟩]⟩

/-- A single triangle whose normal `(0,0,1)` passes both walk conditions, so
neither `cutExtremes` walk ever stops. -/
def meshDb : Mesh := ⟨[⟨0, 0, 0⟩, ⟨1, 0, 0⟩, ⟨0, 1, 0⟩], [(0, 1, 2)], [⟨0, 0, 1⟩]⟩

/-- A `Data` value none of whose fields are read by the restoration sweep with
empty vertex-face adjacencies. -/
def dataEmpty : Data := ⟨[], [], Vis.empty, [], [], [], meshEmpty, [], Vis.empty, []⟩

/-- Restoration environment of the order-dependence counterexample: two
mutually adjacent vertices, no incident faces (so every candidate move
validates), differential coordinate `(1,0,0)` for both. -/
def envE : RestoreEnv := ⟨dataEmpty, [[1], [0]], [[], []], [⟨1, 0, 0⟩, ⟨1, 0, 0⟩], 1 / 2⟩

/-- Two vertices at `(0,0,0)` and `(1,0,0)` (no faces needed: the sweep only
reads positions and adjacencies). -/
def meshE : Mesh := ⟨[⟨0, 0, 0⟩, ⟨1, 0, 0⟩], [], []⟩

/-- A single triangle in the z = 0 plane. -/
def meshF : Mesh := ⟨[⟨0, 0, 0⟩, ⟨1, 0, 0⟩, ⟨0, 1, 0⟩], [(0, 1, 2)], [⟨0, 0, 1⟩]⟩

/-- Data assigning face 0 the direction `(0,0,-1)`: any candidate position of
vertex 0 keeps the rebuilt normal in the upper half space, so the heightfield
test fails on all binary-search attempts. -/
def dataF : Data := ⟨[⟨0, 0, -1⟩], [0], Vis.empty, [], [], [], meshEmpty, [], Vis.empty, []⟩

/-- Restoration environment whose differential coordinate pushes vertex 0 far
along +z, with the constraint direction `(0,0,-1)` of `dataF`. -/
def envF : RestoreEnv :=
  ⟨dataF, [[1, 2], [0, 2], [0, 1]], [[0], [0], [0]], [⟨0, 0, 17⟩, Point3.zero, Point3.zero], 1 / 2⟩

/-- A single triangle in the x = 0 plane with unit normal `(-1,0,0)`: after
the quarter turn around y its normal is `(0,0,1)` and the projection marks it
visible from `(0,0,1)`. -/
def meshG : Mesh := ⟨[⟨0, 0, 0⟩, ⟨0, 1, 0⟩, ⟨0, 0, 1⟩], [(0, 1, 2)], [⟨-1, 0, 0⟩]⟩

/-- Recheck input whose original non-visible set has one face while the
restored mesh is fully visible from its associated direction: the unsigned
subtraction in the return value wraps around. -/
def dataG : Data :=
  ⟨[⟨0, 0, 1⟩, ⟨0, 0, -1⟩, ⟨-1, 0, 0⟩, ⟨1, 0, 0⟩], [0], Vis.empty, [0], [], [],
   meshG, [0], Vis.empty, []⟩

/-- The same recheck input with an empty original non-visible set (witness for
the amended bound). -/
def dataGw : Data :=
  ⟨[⟨0, 0, 1⟩, ⟨0, 0, -1⟩, ⟨-1, 0, 0⟩, ⟨1, 0, 0⟩], [0], Vis.empty, [], [], [],
   meshG, [0], Vis.empty, []⟩

/-- A well-formed single triangle in the z = 0 plane with upward normal
(instance for the ray-shooting scan). -/
def meshH : Mesh := ⟨[⟨0, 0, 0⟩, ⟨1, 0, 0⟩, ⟨0, 1, 0⟩], [(0, 1, 2)], [⟨0, 0, 1⟩]⟩

/-! ### Helper lemmas -/

theorem Vis.set_true_iff (v : Vis) (d f d2 f2 : Nat) :
    (v.set d f) d2 f2 = true ↔ (d2 = d ∧ f2 = f) ∨ v d2 f2 = true := by
  unfold Vis.set
  by_cases h : d2 = d ∧ f2 = f
  · simp [h]
  · simp only [if_neg h]
    tauto

theorem Vis.setI_true_iff (v : Vis) (d : Nat) (fi : Int) (d2 f2 : Nat) :
    (v.setI d fi) d2 f2 = true ↔
      (0 ≤ fi ∧ d2 = d ∧ f2 = fi.toNat) ∨ v d2 f2 = true := by
  unfold Vis.setI
  by_cases h : 0 ≤ fi
  · simp only [if_pos h, Vis.set_true_iff]
    tauto
  · simp only [if_neg h]
    tauto

theorem proj_face_vis_true (overlap : Tri2 → Tri2 → Bool) (m : Mesh)
    (faceId dirIndex : Nat) (direction : Point3) (hfl : ℚ) (st : ProjState)
    (d f : Nat)
    (h : (getVisibilityProjectionOnZFace overlap m faceId dirIndex direction hfl st).vis d f = true) :
    st.vis d f = true ∨
      (d = dirIndex ∧ f = faceId ∧ hfl ≤ direction.dot (m.faceNormal faceId)) := by
  unfold getVisibilityProjectionOnZFace at h
  by_cases h1 : hfl ≤ direction.dot (m.faceNormal faceId)
  · simp only [if_pos h1] at h
    by_cases h2 : st.tree.any (fun t2 => overlap (projectFace m faceId) t2)
    · simp only [if_pos h2] at h
      exact Or.inl h
    · simp only [if_neg h2] at h
      rcases (Vis.set_true_iff _ _ _ _ _).mp h with h3 | h3
      · exact Or.inr ⟨h3.1, h3.2, h1⟩
      · exact Or.inl h3
  · simp only [if_neg h1] at h
    exact Or.inl h

theorem projSweep_vis_true (overlap : Tri2 → Tri2 → Bool) (m : Mesh)
    (dirIndex : Nat) (direction : Point3) (hfl : ℚ) :
    ∀ (faceList : List Nat) (st : ProjState) (d f : Nat),
      (projSweep overlap m dirIndex direction hfl faceList st).vis d f = true →
      st.vis d f = true ∨ (d = dirIndex ∧ hfl ≤ direction.dot (m.faceNormal f)) := by
  intro faceList
  induction faceList with
  | nil => intro st d f h; exact Or.inl h
  | cons a l ih =>
    intro st d f h
    rcases ih _ d f h with h1 | h1
    · rcases proj_face_vis_true overlap m a dirIndex direction hfl st d f h1 with h2 | h2
      · exact Or.inl h2
      · exact Or.inr ⟨h2.1, h2.2.1 ▸ h2.2.2⟩
    · exact Or.inr h1

theorem getVisibilityProjectionOnZ_vis_true (overlap : Tri2 → Tri2 → Bool)
    (m : Mesh) (faceList : List Nat) (dirIndex : Nat) (oppIndex : Int)
    (hfl : ℚ) (visibility : Vis) (d f : Nat)
    (h : getVisibilityProjectionOnZ overlap m faceList dirIndex oppIndex hfl visibility d f = true) :
    visibility d f = true ∨
      (d = dirIndex ∧ hfl ≤ zDirMax.dot (m.faceNormal f)) ∨
      (0 ≤ oppIndex ∧ d = oppIndex.toNat ∧ hfl ≤ zDirMin.dot (m.faceNormal f)) := by
  unfold getVisibilityProjectionOnZ at h
  by_cases hop : 0 ≤ oppIndex
  · simp only [if_pos hop] at h
    rcases projSweep_vis_true overlap m oppIndex.toNat zDirMin hfl _ _ d f h with h1 | h1
    · rcases projSweep_vis_true overlap m dirIndex zDirMax hfl _ _ d f h1 with h2 | h2
      · exact Or.inl h2
      · exact Or.inr (Or.inl h2)
    · exact Or.inr (Or.inr ⟨hop, h1⟩)
  · simp only [if_neg hop] at h
    rcases projSweep_vis_true overlap m dirIndex zDirMax hfl _ _ d f h with h2 | h2
    · exact Or.inl h2
    · exact Or.inr (Or.inl h2)

theorem rayScanStep_maxZFace_eq (m : Mesh) (hfl : ℚ) (oppIndex : Int)
    (acc : RayAcc) (g : Nat) :
    (rayScanStep m hfl oppIndex acc g).maxZFace =
      if acc.maxZCoordinate < (m.barycenter g).z ∧
          hfl ≤ zDirMax.dot (m.faceNormal g) then Int.ofNat g
      else acc.maxZFace := by
  simp only [rayScanStep]
  split_ifs <;> simp_all

theorem rayScanStep_maxZCoordinate_eq (m : Mesh) (hfl : ℚ) (oppIndex : Int)
    (acc : RayAcc) (g : Nat) :
    (rayScanStep m hfl oppIndex acc g).maxZCoordinate =
      if acc.maxZCoordinate < (m.barycenter g).z ∧
          hfl ≤ zDirMax.dot (m.faceNormal g) then (m.barycenter g).z
      else acc.maxZCoordinate := by
  simp only [rayScanStep]
  split_ifs <;> simp_all

theorem rayScanStep_minZFace_eq (m : Mesh) (hfl : ℚ) (oppIndex : Int)
    (acc : RayAcc) (g : Nat) :
    (rayScanStep m hfl oppIndex acc g).minZFace =
      if 0 ≤ oppIndex ∧ (m.barycenter g).z < acc.minZCoordinate ∧
          hfl ≤ zDirMin.dot (m.faceNormal g) then Int.ofNat g
      else acc.minZFace := by
  simp only [rayScanStep]
  split_ifs <;> simp_all

theorem rayScanStep_minZCoordinate_eq (m : Mesh) (hfl : ℚ) (oppIndex : Int)
    (acc : RayAcc) (g : Nat) :
    (rayScanStep m hfl oppIndex acc g).minZCoordinate =
      if 0 ≤ oppIndex ∧ (m.barycenter g).z < acc.minZCoordinate ∧
          hfl ≤ zDirMin.dot (m.faceNormal g) then (m.barycenter g).z
      else acc.minZCoordinate := by
  simp only [rayScanStep]
  split_ifs <;> simp_all

theorem rayFold_max_nonneg (m : Mesh) (hfl : ℚ) (oppIndex : Int) :
    ∀ (l : List Nat) (acc : RayAcc), 0 ≤ acc.maxZFace →
      0 ≤ (l.foldl (rayScanStep m hfl oppIndex) acc).maxZFace := by
  intro l
  induction l with
  | nil => intro acc h; exact h
  | cons a t ih =>
    intro acc h
    refine ih _ ?_
    rw [rayScanStep_maxZFace_eq]
    split_ifs with h1
    · exact Int.ofNat_nonneg a
    · exact h

theorem rayFold_min_nonneg (m : Mesh) (hfl : ℚ) (oppIndex : Int) :
    ∀ (l : List Nat) (acc : RayAcc), 0 ≤ acc.minZFace →
      0 ≤ (l.foldl (rayScanStep m hfl oppIndex) acc).minZFace := by
  intro l
  induction l with
  | nil => intro acc h; exact h
  | cons a t ih =>
    intro acc h
    refine ih _ ?_
    rw [rayScanStep_minZFace_eq]
    split_ifs with h1
    · exact Int.ofNat_nonneg a
    · exact h

theorem rayFold_max_dot (m : Mesh) (hfl : ℚ) (oppIndex : Int) :
    ∀ (l : List Nat) (acc : RayAcc),
      (0 ≤ acc.maxZFace → hfl ≤ zDirMax.dot (m.faceNormal acc.maxZFace.toNat)) →
      0 ≤ (l.foldl (rayScanStep m hfl oppIndex) acc).maxZFace →
      hfl ≤ zDirMax.dot
        (m.faceNormal (l.foldl (rayScanStep m hfl oppIndex) acc).maxZFace.toNat) := by
  intro l
  induction l with
  | nil => intro acc h hge; exact h hge
  | cons a t ih =>
    intro acc h hge
    refine ih _ ?_ hge
    intro h2
    rw [rayScanStep_maxZFace_eq] at h2
    by_cases h1 : acc.maxZCoordinate < (m.barycenter a).z ∧
        hfl ≤ zDirMax.dot (m.faceNormal a)
    · rw [rayScanStep_maxZFace_eq, if_pos h1]
      simpa using h1.2
    · rw [if_neg h1] at h2
      rw [rayScanStep_maxZFace_eq, if_neg h1]
      exact h h2

theorem rayFold_min_dot (m : Mesh) (hfl : ℚ) (oppIndex : Int) :
    ∀ (l : List Nat) (acc : RayAcc),
      (0 ≤ acc.minZFace → hfl ≤ zDirMin.dot (m.faceNormal acc.minZFace.toNat)) →
      0 ≤ (l.foldl (rayScanStep m hfl oppIndex) acc).minZFace →
      hfl ≤ zDirMin.dot
        (m.faceNormal (l.foldl (rayScanStep m hfl oppIndex) acc).minZFace.toNat) := by
  intro l
  induction l with
  | nil => intro acc h hge; exact h hge
  | cons a t ih =>
    intro acc h hge
    refine ih _ ?_ hge
    intro h2
    rw [rayScanStep_minZFace_eq] at h2
    by_cases h1 : 0 ≤ oppIndex ∧ (m.barycenter a).z < acc.minZCoordinate ∧
        hfl ≤ zDirMin.dot (m.faceNormal a)
    · rw [rayScanStep_minZFace_eq, if_pos h1]
      simpa using h1.2.2
    · rw [if_neg h1] at h2
      rw [rayScanStep_minZFace_eq, if_neg h1]
      exact h h2

theorem rayFold_max_none_iff (m : Mesh) (hfl minZ : ℚ) (oppIndex : Int) :
    ∀ (l : List Nat) (acc : RayAcc), acc.maxZFace = -1 →
      acc.maxZCoordinate = minZ →
      (∀ f ∈ l, minZ < (m.barycenter f).z) →
      ((l.foldl (rayScanStep m hfl oppIndex) acc).maxZFace = -1 ↔
        ∀ f ∈ l, ¬ hfl ≤ zDirMax.dot (m.faceNormal f)) := by
  intro l
  induction l with
  | nil => intro acc h1 h2 h3; simpa using h1
  | cons a t ih =>
    intro acc h1 h2 h3
    by_cases hq : hfl ≤ zDirMax.dot (m.faceNormal a)
    · have hup : (rayScanStep m hfl oppIndex acc a).maxZFace = Int.ofNat a := by
        rw [rayScanStep_maxZFace_eq, if_pos ⟨h2 ▸ h3 a (by simp), hq⟩]
      constructor
      · intro hres
        have : 0 ≤ (List.foldl (rayScanStep m hfl oppIndex)
            (rayScanStep m hfl oppIndex acc a) t).maxZFace := by
          refine rayFold_max_nonneg m hfl oppIndex t _ ?_
          rw [hup]
          exact Int.ofNat_nonneg a
        rw [List.foldl_cons] at hres
        omega
      · intro hall
        exact absurd hq (hall a (by simp))
    · rw [List.foldl_cons]
      have h4 : (rayScanStep m hfl oppIndex acc a).maxZFace = -1 := by
        rw [rayScanStep_maxZFace_eq, if_neg (by tauto)]
        exact h1
      have h5 : (rayScanStep m hfl oppIndex acc a).maxZCoordinate = minZ := by
        rw [rayScanStep_maxZCoordinate_eq, if_neg (by tauto)]
        exact h2
      rw [ih _ h4 h5 (fun f hf => h3 f (by simp [hf]))]
      constructor
      · intro hall f hf
        rcases List.mem_cons.mp hf with rfl | hft
        · exact hq
        · exact hall f hft
      · intro hall f hf
        exact hall f (by simp [hf])

theorem rayFold_min_none_iff (m : Mesh) (hfl maxZ : ℚ) (oppIndex : Int)
    (hop : 0 ≤ oppIndex) :
    ∀ (l : List Nat) (acc : RayAcc), acc.minZFace = -1 →
      acc.minZCoordinate = maxZ →
      (∀ f ∈ l, (m.barycenter f).z < maxZ) →
      ((l.foldl (rayScanStep m hfl oppIndex) acc).minZFace = -1 ↔
        ∀ f ∈ l, ¬ hfl ≤ zDirMin.dot (m.faceNormal f)) := by
  intro l
  induction l with
  | nil => intro acc h1 h2 h3; simpa using h1
  | cons a t ih =>
    intro acc h1 h2 h3
    by_cases hq : hfl ≤ zDirMin.dot (m.faceNormal a)
    · have hup : (rayScanStep m hfl oppIndex acc a).minZFace = Int.ofNat a := by
        rw [rayScanStep_minZFace_eq, if_pos ⟨hop, h2 ▸ h3 a (by simp), hq⟩]
      constructor
      · intro hres
        have : 0 ≤ (List.foldl (rayScanStep m hfl oppIndex)
            (rayScanStep m hfl oppIndex acc a) t).minZFace := by
          refine rayFold_min_nonneg m hfl oppIndex t _ ?_
          rw [hup]
          exact Int.ofNat_nonneg a
        rw [List.foldl_cons] at hres
        omega
      · intro hall
        exact absurd hq (hall a (by simp))
    · rw [List.foldl_cons]
      have h4 : (rayScanStep m hfl oppIndex acc a).minZFace = -1 := by
        rw [rayScanStep_minZFace_eq, if_neg (by tauto)]
        exact h1
      have h5 : (rayScanStep m hfl oppIndex acc a).minZCoordinate = maxZ := by
        rw [rayScanStep_minZCoordinate_eq, if_neg (by tauto)]
        exact h2
      rw [ih _ h4 h5 (fun f hf => h3 f (by simp [hf]))]
      constructor
      · intro hall f hf
        rcases List.mem_cons.mp hf with rfl | hft
        · exact hq
        · exact hall f hft
      · intro hall f hf
        exact hall f (by simp [hf])

theorem foldl_min_le_init (key : Point3 → ℚ) :
    ∀ (l : List Point3) (a : ℚ), l.foldl (fun acc p => min acc (key p)) a ≤ a := by
  intro l
  induction l with
  | nil => intro a; exact le_refl a
  | cons v vs ih =>
    intro a
    exact le_trans (ih (min a (key v))) (min_le_left _ _)

theorem foldl_min_le_mem (key : Point3 → ℚ) :
    ∀ (l : List Point3) (a : ℚ) (p : Point3), p ∈ l →
      l.foldl (fun acc q => min acc (key q)) a ≤ key p := by
  intro l
  induction l with
  | nil => intro a p hp; cases hp
  | cons v vs ih =>
    intro a p hp
    rcases List.mem_cons.mp hp with rfl | hvs
    · exact le_trans (foldl_min_le_init key vs _) (min_le_right _ _)
    · exact ih _ p hvs

theorem foldl_max_ge_init (key : Point3 → ℚ) :
    ∀ (l : List Point3) (a : ℚ), a ≤ l.foldl (fun acc p => max acc (key p)) a := by
  intro l
  induction l with
  | nil => intro a; exact le_refl a
  | cons v vs ih =>
    intro a
    exact le_trans (le_max_left _ _) (ih (max a (key v)))

theorem foldl_max_ge_mem (key : Point3 → ℚ) :
    ∀ (l : List Point3) (a : ℚ) (p : Point3), p ∈ l →
      key p ≤ l.foldl (fun acc q => max acc (key q)) a := by
  intro l
  induction l with
  | nil => intro a p hp; cases hp
  | cons v vs ih =>
    intro a p hp
    rcases List.mem_cons.mp hp with rfl | hvs
    · exact le_trans (le_max_right _ _) (foldl_max_ge_init key vs _)
    · exact ih _ p hvs

theorem Mesh.bboxMinZ_le_vertex (m : Mesh) (i : Nat) (hi : i < m.vertices.length) :
    m.bboxMinZ ≤ (m.vertex i).z := by
  unfold Mesh.bboxMinZ Mesh.vertex
  match hm : m.vertices with
  | [] => rw [hm] at hi; cases hi
  | v :: vs =>
    rw [hm] at hi
    rw [List.getD_eq_getElem _ _ hi]
    rcases Nat.eq_zero_or_pos i with rfl | hpos
    · simpa using foldl_min_le_init (fun p => p.z) vs v.z
    · have hmem : (v :: vs)[i] ∈ vs := by
        rcases i with _ | j
        · omega
        · have hj : j < vs.length := by simpa using hi
          have hstep : (v :: vs)[j + 1] = vs[j] := by simp
          rw [hstep]
          exact List.getElem_mem hj
      exact foldl_min_le_mem (fun p => p.z) vs v.z _ hmem

theorem Mesh.vertex_z_le_bboxMaxZ (m : Mesh) (i : Nat) (hi : i < m.vertices.length) :
    (m.vertex i).z ≤ m.bboxMaxZ := by
  unfold Mesh.bboxMaxZ Mesh.vertex
  match hm : m.vertices with
  | [] => rw [hm] at hi; cases hi
  | v :: vs =>
    rw [hm] at hi
    rw [List.getD_eq_getElem _ _ hi]
    rcases Nat.eq_zero_or_pos i with rfl | hpos
    · simpa using foldl_max_ge_init (fun p => p.z) vs v.z
    · have hmem : (v :: vs)[i] ∈ vs := by
        rcases i with _ | j
        · omega
        · have hj : j < vs.length := by simpa using hi
          have hstep : (v :: vs)[j + 1] = vs[j] := by simp
          rw [hstep]
          exact List.getElem_mem hj
      exact foldl_max_ge_mem (fun p => p.z) vs v.z _ hmem

theorem Mesh.barycenter_z_bounds (m : Mesh) (hwf : m.WF) (f : Nat)
    (hf : f < m.numberFaces) :
    m.bboxMinZ - 1 < (m.barycenter f).z ∧ (m.barycenter f).z < m.bboxMaxZ + 1 := by
  have hface : m.face f ∈ m.faces := by
    unfold Mesh.face
    rw [List.getD_eq_getElem _ _ hf]
    exact List.getElem_mem _
  obtain ⟨h1, h2, h3⟩ := hwf.1 _ hface
  have b1 := m.bboxMinZ_le_vertex _ h1
  have b2 := m.bboxMinZ_le_vertex _ h2
  have b3 := m.bboxMinZ_le_vertex _ h3
  have c1 := m.vertex_z_le_bboxMaxZ _ h1
  have c2 := m.vertex_z_le_bboxMaxZ _ h2
  have c3 := m.vertex_z_le_bboxMaxZ _ h3
  have hz : (m.barycenter f).z = (1 / 3) * ((m.vertex (m.face f).1).z +
      (m.vertex (m.face f).2.1).z + (m.vertex (m.face f).2.2).z) := by
    simp [Mesh.barycenter, Point3.scale, HAdd.hAdd, Add.add]
  constructor
  · rw [hz]; linarith
  · rw [hz]; linarith

theorem ray_face_vis_true (intersect : Mesh → Point3 → Point3 → List Nat)
    (m : Mesh) (faceIndex dirIndex : Nat) (oppIndex : Int)
    (hfl minZ maxZ : ℚ) (visibility : Vis) (d f : Nat)
    (h : getVisibilityRayShootingOnZFace intersect m faceIndex dirIndex oppIndex
      hfl minZ maxZ visibility d f = true) :
    visibility d f = true ∨
      (d = dirIndex ∧ hfl ≤ zDirMax.dot (m.faceNormal f)) ∨
      (0 ≤ oppIndex ∧ d = oppIndex.toNat ∧ hfl ≤ zDirMin.dot (m.faceNormal f)) := by
  unfold getVisibilityRayShootingOnZFace at h
  set inter := intersect m ⟨(m.barycenter faceIndex).x, (m.barycenter faceIndex).y, maxZ⟩
    ⟨(m.barycenter faceIndex).x, (m.barycenter faceIndex).y, minZ⟩ with hinter
  have hmax : 0 ≤ (rayScan m hfl minZ maxZ oppIndex inter).maxZFace →
      hfl ≤ zDirMax.dot (m.faceNormal (rayScan m hfl minZ maxZ oppIndex inter).maxZFace.toNat) := by
    intro hge
    exact rayFold_max_dot m hfl oppIndex inter _ (by intro hc; simp at hc) hge
  have hmin : 0 ≤ (rayScan m hfl minZ maxZ oppIndex inter).minZFace →
      hfl ≤ zDirMin.dot (m.faceNormal (rayScan m hfl minZ maxZ oppIndex inter).minZFace.toNat) := by
    intro hge
    exact rayFold_min_dot m hfl oppIndex inter _ (by intro hc; simp at hc) hge
  by_cases hop : 0 ≤ oppIndex
  · simp only [if_pos hop] at h
    rcases (Vis.setI_true_iff _ _ _ _ _).mp h with h1 | h1
    · exact Or.inr (Or.inr ⟨hop, h1.2.1, h1.2.2 ▸ hmin h1.1⟩)
    · rcases (Vis.setI_true_iff _ _ _ _ _).mp h1 with h2 | h2
      · exact Or.inr (Or.inl ⟨h2.2.1, h2.2.2 ▸ hmax h2.1⟩)
      · exact Or.inl h2
  · simp only [if_neg hop] at h
    rcases (Vis.setI_true_iff _ _ _ _ _).mp h with h2 | h2
    · exact Or.inr (Or.inl ⟨h2.2.1, h2.2.2 ▸ hmax h2.1⟩)
    · exact Or.inl h2

theorem getVisibilityRayShootingOnZ_vis_true (intersect : Mesh → Point3 → Point3 → List Nat)
    (m : Mesh) (faceList : List Nat) (dirIndex : Nat) (oppIndex : Int)
    (hfl : ℚ) (visibility : Vis) (d f : Nat)
    (h : getVisibilityRayShootingOnZ intersect m faceList dirIndex oppIndex hfl visibility d f = true) :
    visibility d f = true ∨
      (d = dirIndex ∧ hfl ≤ zDirMax.dot (m.faceNormal f)) ∨
      (0 ≤ oppIndex ∧ d = oppIndex.toNat ∧ hfl ≤ zDirMin.dot (m.faceNormal f)) := by
  unfold getVisibilityRayShootingOnZ at h
  revert visibility
  induction faceList with
  | nil => intro visibility h; exact Or.inl h
  | cons a t ih =>
    intro visibility h
    rcases ih _ h with h1 | h1
    · rcases ray_face_vis_true intersect m a dirIndex oppIndex hfl
        (m.bboxMinZ - 1) (m.bboxMaxZ + 1) visibility d f h1 with h2 | h2
      · exact Or.inl h2
      · exact Or.inr h2
    · exact Or.inr h1

theorem walkWhile_eq_none_iff (cond : Nat → Bool) :
    ∀ l : List Nat, walkWhile cond l = none ↔ ∀ f ∈ l, cond f = true := by
  intro l
  induction l with
  | nil => simp [walkWhile]
  | cons a t ih =>
    by_cases hc : cond a
    · simp only [walkWhile, if_pos hc]
      constructor
      · intro h f hf
        rcases List.mem_cons.mp hf with rfl | hft
        · exact hc
        · exact (ih.mp (by simpa using h)) f hft
      · intro h
        have : walkWhile cond t = none := ih.mpr (fun f hf => h f (by simp [hf]))
        simp [this]
    · simp only [walkWhile, if_neg hc]
      constructor
      · intro h; cases h
      · intro h
        exact absurd (h a (by simp)) hc

theorem walkWhile_eq_takeWhile (cond : Nat → Bool) :
    ∀ l : List Nat, (∃ f ∈ l, cond f = false) →
      walkWhile cond l = some (l.takeWhile cond) := by
  intro l
  induction l with
  | nil => intro h; simp at h
  | cons a t ih =>
    intro h
    by_cases hc : cond a
    · have ht : ∃ f ∈ t, cond f = false := by
        rcases h with ⟨f, hf, hfc⟩
        rcases List.mem_cons.mp hf with rfl | hft
        · rw [hc] at hfc; cases hfc
        · exact ⟨f, hft, hfc⟩
      simp [walkWhile, hc, ih ht, List.takeWhile_cons, hc]
    · simp [walkWhile, hc, List.takeWhile_cons, Bool.of_not_eq_true hc]

theorem mem_detectNonVisibleFaces (sizeX sizeY : Nat) (visibility : Vis) (f : Nat) :
    f ∈ detectNonVisibleFaces sizeX sizeY visibility ↔
      f < sizeY ∧ ∀ d < sizeX, visibility d f = false := by
  unfold detectNonVisibleFaces
  rw [List.mem_filter, List.mem_range]
  constructor
  · intro ⟨h1, h2⟩
    refine ⟨h1, ?_⟩
    intro d hd
    have h3 : ¬ (List.range sizeX).any (fun i => visibility i f) = true := by
      simpa using h2
    rw [List.any_eq_true] at h3
    push_neg at h3
    have := h3 d (List.mem_range.mpr hd)
    simpa using this
  · intro ⟨h1, h2⟩
    refine ⟨h1, ?_⟩
    have h3 : ¬ (List.range sizeX).any (fun i => visibility i f) = true := by
      rw [List.any_eq_true]
      push_neg
      intro d hd
      simp [h2 d (List.mem_range.mp hd)]
    simpa using h3

theorem Point3.lexLt_asymm {p q : Point3} (h : p.lexLt q) : ¬ q.lexLt p := by
  unfold Point3.lexLt at h ⊢
  rcases h with h | ⟨hx, h⟩
  · rintro (h2 | ⟨hx2, h2⟩) <;> linarith
  · rcases h with hy | ⟨hy, hz⟩
    · rintro (h2 | ⟨hx2, h2 | ⟨hy2, hz2⟩⟩) <;> linarith
    · rintro (h2 | ⟨hx2, h2 | ⟨hy2, hz2⟩⟩) <;> linarith

theorem Point3.lexLt_trans {p q r : Point3} (h1 : p.lexLt q) (h2 : q.lexLt r) :
    p.lexLt r := by
  unfold Point3.lexLt at h1 h2 ⊢
  rcases h1 with h1 | ⟨hx1, h1⟩
  · rcases h2 with h2 | ⟨hx2, h2⟩
    · left; linarith
    · left; linarith
  · rcases h2 with h2 | ⟨hx2, h2⟩
    · left; linarith
    · right
      refine ⟨by linarith, ?_⟩
      rcases h1 with h1 | ⟨hy1, hz1⟩
      · rcases h2 with h2 | ⟨hy2, hz2⟩
        · left; linarith
        · left; linarith
      · rcases h2 with h2 | ⟨hy2, hz2⟩
        · left; linarith
        · right; exact ⟨by linarith, by linarith⟩

theorem Point3.lexLt_connex (p q : Point3) : p.lexLt q ∨ p = q ∨ q.lexLt p := by
  unfold Point3.lexLt
  rcases lt_trichotomy p.x q.x with hx | hx | hx
  · left; left; exact hx
  · rcases lt_trichotomy p.y q.y with hy | hy | hy
    · left; right; exact ⟨hx, Or.inl hy⟩
    · rcases lt_trichotomy p.z q.z with hz | hz | hz
      · left; right; exact ⟨hx, Or.inr ⟨hy, hz⟩⟩
      · right; left
        cases p; cases q
        simp_all
      · right; right; right; exact ⟨hx.symm, Or.inr ⟨hy.symm, hz⟩⟩
    · right; right; right; exact ⟨hx.symm, Or.inl hy⟩
  · right; right; left; exact hx

theorem sortedFaceIndices_sorted (m : Mesh) :
    List.Sorted (fun f1 f2 => ¬ triangleComparator m f2 f1) (sortedFaceIndices m) := by
  haveI ht : IsTotal Nat (fun f1 f2 => ¬ triangleComparator m f2 f1) := by
    constructor
    intro a b
    by_cases h : triangleComparator m b a
    · right
      exact Point3.lexLt_asymm h
    · left
      exact h
  haveI htr : IsTrans Nat (fun f1 f2 => ¬ triangleComparator m f2 f1) := by
    constructor
    intro a b c hab hbc hca
    rcases Point3.lexLt_connex (triangleCentroid m a) (triangleCentroid m b) with h | h | h
    · exact hbc (Point3.lexLt_trans hca h)
    · refine hbc ?_
      unfold triangleComparator at hca ⊢
      rw [← h]
      exact hca
    · exact hab h
  exact List.sorted_insertionSort _ _

theorem sortedFaceIndices_perm (m : Mesh) :
    (sortedFaceIndices m).Perm (List.range m.numberFaces) :=
  List.perm_insertionSort _ _

theorem mem_sortedFaceIndices (m : Mesh) (f : Nat) :
    f ∈ sortedFaceIndices m ↔ f < m.numberFaces := by
  rw [(sortedFaceIndices_perm m).mem_iff, List.mem_range]

theorem binarySearchAux_count_le (valid : Point3 → Bool) (currentPoint : Point3) :
    ∀ (fuel : Nat) (targetPoint : Point3) (count : Nat),
      (binarySearchAux valid currentPoint fuel targetPoint count).2 ≤ count + fuel := by
  intro fuel
  induction fuel with
  | zero => intro t c; simp [binarySearchAux]
  | succ n ih =>
    intro t c
    unfold binarySearchAux
    split_ifs with h
    · simp
    · have := ih (Point3.scale (1 / 2) (t + currentPoint)) (c + 1)
      omega

theorem restoreSweepGo_frame (env : RestoreEnv) :
    ∀ (order : List Nat) (m : Mesh) (b : Bool),
      (order.foldl (fun (acc : Mesh × Bool) vId =>
        let s := restoreVertexStep env acc.1 vId
        (s.1, acc.2 || s.2)) (m, b)).1.faces = m.faces ∧
      (order.foldl (fun (acc : Mesh × Bool) vId =>
        let s := restoreVertexStep env acc.1 vId
        (s.1, acc.2 || s.2)) (m, b)).1.normals = m.normals ∧
      (order.foldl (fun (acc : Mesh × Bool) vId =>
        let s := restoreVertexStep env acc.1 vId
        (s.1, acc.2 || s.2)) (m, b)).1.vertices.length = m.vertices.length := by
  intro order
  induction order with
  | nil => intro m b; exact ⟨rfl, rfl, rfl⟩
  | cons a t ih =>
    intro m b
    have hstep : (restoreVertexStep env m a).1.faces = m.faces ∧
        (restoreVertexStep env m a).1.normals = m.normals ∧
        (restoreVertexStep env m a).1.vertices.length = m.vertices.length := by
      simp only [restoreVertexStep]
      split_ifs with h
      · exact ⟨rfl, rfl, List.length_set _ _ _⟩
      · exact ⟨rfl, rfl, rfl⟩
    rw [List.foldl_cons]
    obtain ⟨ihf, ihn, ihl⟩ := ih (restoreVertexStep env m a).1
      (b || (restoreVertexStep env m a).2)
    exact ⟨ihf.trans hstep.1, ihn.trans hstep.2.1, ihl.trans hstep.2.2⟩

theorem foldl_pushback_eq_append :
    ∀ (l : List Nat) (init : List Nat),
      l.foldl (fun acc i => acc ++ [i]) init = init ++ l := by
  intro l
  induction l with
  | nil => intro init; simp
  | cons a t ih =>
    intro init
    rw [List.foldl_cons, ih]
    simp

theorem wrapU32_of_le (a b : Nat) (hba : b ≤ a) (ha : a < 2 ^ 32) :
    wrapU32 a b = a - b := by
  unfold wrapU32
  have h1 : (a : Int) % 2 ^ 32 = a := by
    rw [Int.emod_eq_of_lt (by positivity) (by exact_mod_cast ha)]
  rw [h1]
  have h2 : ((a : Int) - b) % 2 ^ 64 = (a : Int) - b := by
    rw [Int.emod_eq_of_lt (by omega) (by push_cast; omega)]
  rw [h2]
  have h3 : ((a : Int) - b) % 2 ^ 32 = (a : Int) - b := by
    rw [Int.emod_eq_of_lt (by omega) (by push_cast; omega)]
  rw [h3]
  omega

theorem rayFold_max_neg_or (m : Mesh) (hfl : ℚ) (oppIndex : Int) :
    ∀ (l : List Nat) (acc : RayAcc), acc.maxZFace = -1 ∨ 0 ≤ acc.maxZFace →
      (l.foldl (rayScanStep m hfl oppIndex) acc).maxZFace = -1 ∨
        0 ≤ (l.foldl (rayScanStep m hfl oppIndex) acc).maxZFace := by
  intro l
  induction l with
  | nil => intro acc h; exact h
  | cons a t ih =>
    intro acc h
    refine ih _ ?_
    rw [rayScanStep_maxZFace_eq]
    split_ifs with h1
    · right; exact Int.ofNat_nonneg a
    · exact h

theorem rayFold_min_neg_or (m : Mesh) (hfl : ℚ) (oppIndex : Int) :
    ∀ (l : List Nat) (acc : RayAcc), acc.minZFace = -1 ∨ 0 ≤ acc.minZFace →
      (l.foldl (rayScanStep m hfl oppIndex) acc).minZFace = -1 ∨
        0 ≤ (l.foldl (rayScanStep m hfl oppIndex) acc).minZFace := by
  intro l
  induction l with
  | nil => intro acc h; exact h
  | cons a t ih =>
    intro acc h
    refine ih _ ?_
    rw [rayScanStep_minZFace_eq]
    split_ifs with h1
    · right; exact Int.ofNat_nonneg a
    · exact h

/-! ### Claim theorems -/

/-- C1, counterexample: the claim asserts that every entry set to 1 by the
Visibility Analyzer — including the rows pre-seeded from the extreme sets when
`includeXDirections` is false — satisfies the heightfield bound against its
direction. On a single upward-facing triangle pre-seeded as a min extreme,
row `minIndex = 2` is set for direction `(-1,0,0)` although the face normal's
dot product with that direction is `0 < cos(heightfieldAngle) = 1/2`. -/
theorem claim_C1_counterexample :
    (computeVisibilityProjectionRay (fun _ _ => false) (fun _ _ _ => []) id id id
      meshA 2 (1 / 2) false [0] [0] false).vis 2 0 = true ∧
    (computeVisibilityProjectionRay (fun _ _ => false) (fun _ _ _ => []) id id id
      meshA 2 (1 / 2) false [0] [0] false).directions 2 = ⟨-1, 0, 0⟩ ∧
    (meshA.faceNormal 0).dot ⟨-1, 0, 0⟩ < 1 / 2 := by
  refine ⟨by decide, by decide, by norm_num [Mesh.faceNormal, meshA, Point3.dot]⟩

/-- C1 (amended): for the ray-shooting and projection strategies, every
visibility entry newly set to 1 in row `d` implies the face's cached normal at
computation time has dot product at least `cos(heightfieldAngle)` with the
query direction of that row (`(0,0,1)` for `directionIndex`, `(0,0,-1)` for a
non-negative `oppositeDirectionIndex`). The original claim's occlusion
conjunct is not asserted — neither strategy guarantees it — and entries
pre-seeded from the extreme sets carry not even the heightfield bound (see
the counterexample). -/
theorem claim_C1_theorem (overlap : Tri2 → Tri2 → Bool)
    (intersect : Mesh → Point3 → Point3 → List Nat) (m : Mesh)
    (faceList : List Nat) (dirIndex : Nat) (oppIndex : Int) (hfl : ℚ)
    (visibility : Vis) (d f : Nat) :
    (getVisibilityProjectionOnZ overlap m faceList dirIndex oppIndex hfl
        visibility d f = true →
      visibility d f = true ∨
        (d = dirIndex ∧ hfl ≤ zDirMax.dot (m.faceNormal f)) ∨
        (0 ≤ oppIndex ∧ d = oppIndex.toNat ∧ hfl ≤ zDirMin.dot (m.faceNormal f))) ∧
    (getVisibilityRayShootingOnZ intersect m faceList dirIndex oppIndex hfl
        visibility d f = true →
      visibility d f = true ∨
        (d = dirIndex ∧ hfl ≤ zDirMax.dot (m.faceNormal f)) ∨
        (0 ≤ oppIndex ∧ d = oppIndex.toNat ∧ hfl ≤ zDirMin.dot (m.faceNormal f))) :=
  ⟨getVisibilityProjectionOnZ_vis_true overlap m faceList dirIndex oppIndex hfl
      visibility d f,
   getVisibilityRayShootingOnZ_vis_true intersect m faceList dirIndex oppIndex hfl
      visibility d f⟩

/-- C1, witness: both strategy implications applied on a concrete one-triangle
mesh where the entry `(0, 0)` is set. -/
theorem claim_C1_witness :
    (Vis.empty 0 0 = true ∨
      (0 = 0 ∧ (1 : ℚ) / 2 ≤ zDirMax.dot (meshA.faceNormal 0)) ∨
      (0 ≤ (1 : Int) ∧ 0 = (1 : Int).toNat ∧
        (1 : ℚ) / 2 ≤ zDirMin.dot (meshA.faceNormal 0))) ∧
    (Vis.empty 0 0 = true ∨
      (0 = 0 ∧ (1 : ℚ) / 2 ≤ zDirMax.dot (meshA.faceNormal 0)) ∨
      (0 ≤ (1 : Int) ∧ 0 = (1 : Int).toNat ∧
        (1 : ℚ) / 2 ≤ zDirMin.dot (meshA.faceNormal 0))) :=
  ⟨(claim_C1_theorem (fun _ _ => false) (fun _ _ _ => [0]) meshA [0] 0 1 (1 / 2)
      Vis.empty 0 0).1 (by with_unfolding_all decide),
   (claim_C1_theorem (fun _ _ => false) (fun _ _ _ => [0]) meshA [0] 0 1 (1 / 2)
      Vis.empty 0 0).2 (by with_unfolding_all decide)⟩

/-- C2, counterexample: the claim asserts that a face with an all-zero
visibility row is left sparse and no entry is forced to 1. In the cited
`checkVisibilityAllPlanes` (fouraxis.cpp), with an intersection oracle that
reports no hits, the per-plane scan leaves the single face's column all zero,
yet the final pass forces the last row's entry to 1. -/
theorem claim_C2_counterexample :
    (∀ d, d < 3 →
      checkVisibilityAllPlanesScan (fun _ _ _ => []) id meshB 1 d 0 = false) ∧
    checkVisibilityAllPlanes (fun _ _ _ => []) id meshB 1 2 0 = true := by
  refine ⟨by decide, by decide⟩

/-- C2 (amended): in the faf Visibility Analyzer (`getVisibility` for the
projection / ray-shooting modes), a face is recorded in the non-visible list
exactly when its entire column over all `nDirections/2*2 + 2` rows is zero,
and the returned matrix is exactly the strategy's matrix — rows are left
sparse there; the legacy `checkVisibilityAllPlanes` instead forces the last
row's entry for all-zero columns (see the counterexample). -/
theorem claim_C2_theorem (overlap : Tri2 → Tri2 → Bool)
    (intersect : Mesh → Point3 → Point3 → List Nat)
    (rotateStep : Mesh → Mesh) (rotateVec : Point3 → Point3)
    (rotateY90 : Mesh → Mesh) (mesh : Mesh) (nDirections : Nat) (hfl : ℚ)
    (includeXDirections : Bool) (minExtremes maxExtremes : List Nat)
    (modeRay : Bool) (f : Nat) :
    (f ∈ (getVisibility overlap intersect rotateStep rotateVec rotateY90 mesh
        nDirections hfl includeXDirections minExtremes maxExtremes modeRay).2 ↔
      f < mesh.numberFaces ∧ ∀ d < nDirections / 2 * 2 + 2,
        (getVisibility overlap intersect rotateStep rotateVec rotateY90 mesh
          nDirections hfl includeXDirections minExtremes maxExtremes modeRay).1.vis d f = false) ∧
    (getVisibility overlap intersect rotateStep rotateVec rotateY90 mesh
        nDirections hfl includeXDirections minExtremes maxExtremes modeRay).1 =
      computeVisibilityProjectionRay overlap intersect rotateStep rotateVec
        rotateY90 mesh nDirections hfl includeXDirections minExtremes maxExtremes
        modeRay :=
  ⟨mem_detectNonVisibleFaces _ _ _ f, rfl⟩

/-- C4, counterexample: the claim asserts that a solver exception also yields
the all-directions fallback; in the source the `catch` blocks only log, so
`survivedPlanes` (cleared on entry) stays empty instead of holding all
direction indices. -/
theorem claim_C4_counterexample :
    minimizeNumberPlanes true SolveOutcome.failure 3 Vis.empty = [] ∧
    minimizeNumberPlanes true SolveOutcome.failure 3 Vis.empty ≠ List.range 3 := by
  refine ⟨rfl, by decide⟩

/-- C4 (amended): when the ILP solver is unavailable (not compiled in), the
Direction-Set Minimizer returns every direction index in order; when the
solver is available but its solve throws, the survived list is left empty. -/
theorem claim_C4_theorem (outcome : SolveOutcome) (nOrientations : Nat)
    (visibility : Vis) :
    minimizeNumberPlanes false outcome nOrientations visibility =
      List.range nOrientations ∧
    minimizeNumberPlanes true SolveOutcome.failure nOrientations visibility = [] := by
  constructor
  · unfold minimizeNumberPlanes
    simp [foldl_pushback_eq_append]
  · rfl

/-- C8: `restoreFrequencies` leaves the pre-restoration association,
visibility matrix and non-visible set (and the direction and extreme lists)
unchanged, and copies exactly those pre-restoration values into the
restored-mesh association, visibility and non-visible slots. -/
theorem claim_C8 (updateNormals : Mesh → Mesh)
    (vertexVertexAdjacencies vertexFaceAdjacencies : List (List Nat))
    (iterations : Nat) (hfl : ℚ) (originalMesh smoothedMesh : Mesh) (data : Data) :
    (restoreFrequencies updateNormals vertexVertexAdjacencies
        vertexFaceAdjacencies iterations hfl originalMesh smoothedMesh
        data).association = data.association ∧
    (restoreFrequencies updateNormals vertexVertexAdjacencies
        vertexFaceAdjacencies iterations hfl originalMesh smoothedMesh
        data).visibility = data.visibility ∧
    (restoreFrequencies updateNormals vertexVertexAdjacencies
        vertexFaceAdjacencies iterations hfl originalMesh smoothedMesh
        data).nonVisibleFaces = data.nonVisibleFaces ∧
    (restoreFrequencies updateNormals vertexVertexAdjacencies
        vertexFaceAdjacencies iterations hfl originalMesh smoothedMesh
        data).directions = data.directions ∧
    (restoreFrequencies updateNormals vertexVertexAdjacencies
        vertexFaceAdjacencies iterations hfl originalMesh smoothedMesh
        data).minExtremes = data.minExtremes ∧
    (restoreFrequencies updateNormals vertexVertexAdjacencies
        vertexFaceAdjacencies iterations hfl originalMesh smoothedMesh
        data).maxExtremes = data.maxExtremes ∧
    (restoreFrequencies updateNormals vertexVertexAdjacencies
        vertexFaceAdjacencies iterations hfl originalMesh smoothedMesh
        data).restoredMeshAssociation = data.association ∧
    (restoreFrequencies updateNormals vertexVertexAdjacencies
        vertexFaceAdjacencies iterations hfl originalMesh smoothedMesh
        data).restoredMeshVisibility = data.visibility ∧
    (restoreFrequencies updateNormals vertexVertexAdjacencies
        vertexFaceAdjacencies iterations hfl originalMesh smoothedMesh
        data).restoredMeshNonVisibleFaces = data.nonVisibleFaces :=
  ⟨rfl, rfl, rfl, rfl, rfl, rfl, rfl, rfl, rfl⟩

/-- C3, counterexample: the claim asserts that target points are computed from
the pre-sweep state, moves are committed at sweep end, and results are
order-independent. On two mutually adjacent vertices the source's sweep
(immediate commits) differs from the simultaneous-commit sweep modelled from
the spec, and processing the vertices in the opposite order changes the
result. -/
theorem claim_C3_counterexample :
    restoreFrequenciesValidHeightfields envE meshE = restoreSweep envE meshE [0, 1] ∧
    (restoreSweep envE meshE [0, 1]).1 ≠ restoreSweepSimultaneous envE meshE [0, 1] ∧
    (restoreSweep envE meshE [0, 1]).1 ≠ (restoreSweep envE meshE [1, 0]).1 := by
  refine ⟨rfl, by with_unfolding_all decide, by with_unfolding_all decide⟩

/-- C3 (amended): the restoration sweep is the left fold of the per-vertex
step in processing order — each vertex's target point is computed from the
mesh as already updated by all earlier vertices of the same sweep and an
accepted move is committed immediately — and a sweep only repositions
vertices (faces, cached normals and the vertex count are unchanged). Results
may therefore depend on the processing order (see the counterexample). -/
theorem claim_C3_theorem (env : RestoreEnv) (m : Mesh) (order : List Nat)
    (vId : Nat) :
    restoreSweep env m (order ++ [vId]) =
      ((restoreVertexStep env (restoreSweep env m order).1 vId).1,
        (restoreSweep env m order).2 ||
          (restoreVertexStep env (restoreSweep env m order).1 vId).2) ∧
    (restoreSweep env m order).1.faces = m.faces ∧
    (restoreSweep env m order).1.normals = m.normals ∧
    (restoreSweep env m order).1.vertices.length = m.vertices.length := by
  constructor
  · unfold restoreSweep
    rw [List.foldl_append]
    rfl
  · exact restoreSweepGo_frame env order m false

/-- C6: the per-vertex binary-search loop, entered with counter 0, always
stops with a counter at most `BINARY_SEARCH_ITERATIONS = 10`, and when the
candidate is still invalid with the counter at the bound the vertex step
leaves the mesh unchanged and reports no move. -/
theorem claim_C6 (env : RestoreEnv) (m : Mesh) (vId : Nat) :
    (binarySearchLoop (heightfieldValidAt env m vId) (m.vertex vId)
      (getTargetPoint m env.differentialCoordinates vId
        env.vertexVertexAdjacencies) 0).2 ≤ BINARY_SEARCH_ITERATIONS ∧
    (heightfieldValidAt env m vId
        (binarySearchLoop (heightfieldValidAt env m vId) (m.vertex vId)
          (getTargetPoint m env.differentialCoordinates vId
            env.vertexVertexAdjacencies) 0).1 = false →
      (binarySearchLoop (heightfieldValidAt env m vId) (m.vertex vId)
        (getTargetPoint m env.differentialCoordinates vId
          env.vertexVertexAdjacencies) 0).2 = BINARY_SEARCH_ITERATIONS →
      restoreVertexStep env m vId = (m, false)) := by
  constructor
  · have h := binarySearchAux_count_le (heightfieldValidAt env m vId) (m.vertex vId)
      (BINARY_SEARCH_ITERATIONS - 0)
      (getTargetPoint m env.differentialCoordinates vId env.vertexVertexAdjacencies) 0
    unfold binarySearchLoop
    omega
  · intro hInv hB
    simp only [restoreVertexStep]
    rw [hB]
    simp [BINARY_SEARCH_ITERATIONS]

/-- C6, witness: a vertex whose assigned direction `(0,0,-1)` rejects every
candidate position exhausts the 10 attempts and is left unmoved. -/
theorem claim_C6_witness : restoreVertexStep envF meshF 0 = (meshF, false) :=
  (claim_C6 envF meshF 0).2 (by with_unfolding_all decide)
    (by with_unfolding_all decide)

/-- C7, counterexample: the claim asserts that the min-end walk only collects
faces whose normal has a strongly negative dot product with the x-axis. On
`meshC` the min extreme set is `[0, 1]` although face 0's unit normal has a
strictly positive dot product with the x-axis (it is merely below the
`double` epsilon tolerance the code actually tests). -/
theorem claim_C7_counterexample :
    (cutExtremes meshC).1 = some [0, 1] ∧
    0 < (meshC.faceNormal 0).dot plusX := by
  refine ⟨by with_unfolding_all decide, by with_unfolding_all decide⟩

/-- C7 (amended): `cutExtremes` sorts the face indices by centroid with the
lexicographic point order (a permutation of all face indices), and — whenever
each end has a stopping face, so the unchecked walks stay in bounds — the min
extreme set is the longest sorted prefix with `normal · (-x) ≥ -ε` (that is,
normal x-component at most `+ε`, not necessarily strongly negative) and the
max extreme set is the longest reversed-order prefix with
`normal · (+x) ≥ -ε`. -/
theorem claim_C7_theorem (m : Mesh)
    (hmin : ∃ f ∈ sortedFaceIndices m, minWalkCond m f = false)
    (hmax : ∃ f ∈ (sortedFaceIndices m).reverse, maxWalkCond m f = false) :
    (cutExtremes m).1 = some ((sortedFaceIndices m).takeWhile (minWalkCond m)) ∧
    (cutExtremes m).2 =
      some ((sortedFaceIndices m).reverse.takeWhile (maxWalkCond m)) ∧
    List.Sorted (fun f1 f2 => ¬ triangleComparator m f2 f1) (sortedFaceIndices m) ∧
    (sortedFaceIndices m).Perm (List.range m.numberFaces) := by
  refine ⟨?_, ?_, sortedFaceIndices_sorted m, sortedFaceIndices_perm m⟩
  · exact walkWhile_eq_takeWhile (minWalkCond m) (sortedFaceIndices m) hmin
  · exact walkWhile_eq_takeWhile (maxWalkCond m) (sortedFaceIndices m).reverse hmax

/-- C7, witness: the characterization applied to the concrete three-face mesh
(both walks have stopping faces there). -/
theorem claim_C7_witness :
    (cutExtremes meshC).1 =
      some ((sortedFaceIndices meshC).takeWhile (minWalkCond meshC)) ∧
    (cutExtremes meshC).2 =
      some ((sortedFaceIndices meshC).reverse.takeWhile (maxWalkCond meshC)) ∧
    List.Sorted (fun f1 f2 => ¬ triangleComparator meshC f2 f1)
      (sortedFaceIndices meshC) ∧
    (sortedFaceIndices meshC).Perm (List.range meshC.numberFaces) :=
  claim_C7_theorem meshC ⟨2, by with_unfolding_all decide, by with_unfolding_all decide⟩
    ⟨1, by with_unfolding_all decide, by with_unfolding_all decide⟩

/-- C5, counterexample: the claim asserts the recheck's return value is
between 0 and the face count. On a one-face restored mesh that is fully
visible from its associated direction while the original non-visible set
holds one face, the unsigned subtraction wraps to `2^32 - 1`, far above the
single face. -/
theorem claim_C5_counterexample :
    (checkVisibilityAfterFrequenciesAreRestored (fun _ _ => false)
      (fun _ _ _ => []) id id rotY90Mesh dataG (1 / 2) false).2 = 4294967295 ∧
    dataG.restoredMesh.numberFaces = 1 ∧
    ¬ (checkVisibilityAfterFrequenciesAreRestored (fun _ _ => false)
      (fun _ _ _ => []) id id rotY90Mesh dataG (1 / 2) false).2 ≤
        dataG.restoredMesh.numberFaces := by
  refine ⟨by with_unfolding_all decide, rfl, by with_unfolding_all decide⟩

/-- C5 (amended): the recheck's return value is the difference of the
restored-mesh non-visible count and the original non-visible count computed
in 32-bit unsigned arithmetic; whenever the original count does not exceed
the restored count, the association is no longer than the face list and the
face count is below `2^32`, the value is that plain difference and is at most
the total face count of the restored mesh. When the original count exceeds
the restored one it wraps around (see the counterexample). -/
theorem claim_C5_theorem (overlap : Tri2 → Tri2 → Bool)
    (intersect : Mesh → Point3 → Point3 → List Nat)
    (rotateStep : Mesh → Mesh) (rotateVec : Point3 → Point3)
    (rotateY90 : Mesh → Mesh) (data : Data) (hfl : ℚ) (modeRay : Bool)
    (h1 : data.nonVisibleFaces.length ≤
      (checkVisibilityAfterFrequenciesAreRestored overlap intersect rotateStep
        rotateVec rotateY90 data hfl modeRay).1.restoredMeshNonVisibleFaces.length)
    (h2 : data.restoredMeshAssociation.length ≤ data.restoredMesh.numberFaces)
    (h3 : data.restoredMesh.numberFaces < 2 ^ 32) :
    (checkVisibilityAfterFrequenciesAreRestored overlap intersect rotateStep
      rotateVec rotateY90 data hfl modeRay).2 =
      (checkVisibilityAfterFrequenciesAreRestored overlap intersect rotateStep
        rotateVec rotateY90 data hfl
        modeRay).1.restoredMeshNonVisibleFaces.length -
        data.nonVisibleFaces.length ∧
    (checkVisibilityAfterFrequenciesAreRestored overlap intersect rotateStep
      rotateVec rotateY90 data hfl modeRay).2 ≤ data.restoredMesh.numberFaces := by
  have hNV : (checkVisibilityAfterFrequenciesAreRestored overlap intersect
      rotateStep rotateVec rotateY90 data hfl
      modeRay).1.restoredMeshNonVisibleFaces =
      (List.range data.restoredMeshAssociation.length).filter
        (fun faceId =>
          (computeVisibilityProjectionRay overlap intersect rotateStep rotateVec
            rotateY90 data.restoredMesh ((data.directions.length - 2) / 2) hfl
            true data.minExtremes data.maxExtremes modeRay).vis
            (data.restoredMeshAssociation.getD faceId 0) faceId = false) := rfl
  have hRet : (checkVisibilityAfterFrequenciesAreRestored overlap intersect
      rotateStep rotateVec rotateY90 data hfl modeRay).2 =
      wrapU32 ((checkVisibilityAfterFrequenciesAreRestored overlap intersect
        rotateStep rotateVec rotateY90 data hfl
        modeRay).1.restoredMeshNonVisibleFaces.length)
        data.nonVisibleFaces.length := rfl
  have hlen : (checkVisibilityAfterFrequenciesAreRestored overlap intersect
      rotateStep rotateVec rotateY90 data hfl
      modeRay).1.restoredMeshNonVisibleFaces.length ≤
      data.restoredMeshAssociation.length := by
    rw [hNV]
    exact le_trans (List.length_filter_le _ _) (by rw [List.length_range])
  have ha : (checkVisibilityAfterFrequenciesAreRestored overlap intersect
      rotateStep rotateVec rotateY90 data hfl
      modeRay).1.restoredMeshNonVisibleFaces.length < 2 ^ 32 := by omega
  rw [hRet, wrapU32_of_le _ _ h1 ha]
  omega

/-- C5, witness: the amended bound applied to a concrete recheck run whose
original non-visible set is empty. -/
theorem claim_C5_witness :
    (checkVisibilityAfterFrequenciesAreRestored (fun _ _ => false)
      (fun _ _ _ => []) id id rotY90Mesh dataGw (1 / 2) false).2 =
      (checkVisibilityAfterFrequenciesAreRestored (fun _ _ => false)
        (fun _ _ _ => []) id id rotY90Mesh dataGw (1 / 2)
        false).1.restoredMeshNonVisibleFaces.length -
        dataGw.nonVisibleFaces.length ∧
    (checkVisibilityAfterFrequenciesAreRestored (fun _ _ => false)
      (fun _ _ _ => []) id id rotY90Mesh dataGw (1 / 2) false).2 ≤
      dataGw.restoredMesh.numberFaces :=
  claim_C5_theorem (fun _ _ => false) (fun _ _ _ => []) id id rotY90Mesh dataGw
    (1 / 2) false (by with_unfolding_all decide) (by with_unfolding_all decide)
    (by with_unfolding_all decide)

/-- C9: in `cutExtremes`, when some face fails the min-end (resp. max-end)
tolerance test, the corresponding unchecked index walk stops inside the array
(the walk result is a value, meaning every access was in bounds); when every
face passes the test the walk runs past the end of the array (result `none`,
the out-of-bounds read `fIndices[fIndices.size()]`, resp. the unsigned
wrap-around below index 0). -/
theorem claim_C9 (m : Mesh) :
    ((∃ f, f < m.numberFaces ∧ minWalkCond m f = false) →
      ((cutExtremes m).1).isSome = true) ∧
    ((∃ f, f < m.numberFaces ∧ maxWalkCond m f = false) →
      ((cutExtremes m).2).isSome = true) ∧
    ((∀ f, f < m.numberFaces → minWalkCond m f = true) →
      (cutExtremes m).1 = none) ∧
    ((∀ f, f < m.numberFaces → maxWalkCond m f = true) →
      (cutExtremes m).2 = none) := by
  refine ⟨?_, ?_, ?_, ?_⟩
  · rintro ⟨f, hf, hc⟩
    have hmem : f ∈ sortedFaceIndices m := (mem_sortedFaceIndices m f).mpr hf
    have h := walkWhile_eq_takeWhile (minWalkCond m) (sortedFaceIndices m)
      ⟨f, hmem, hc⟩
    show (walkWhile (minWalkCond m) (sortedFaceIndices m)).isSome = true
    rw [h]
    rfl
  · rintro ⟨f, hf, hc⟩
    have hmem : f ∈ (sortedFaceIndices m).reverse :=
      List.mem_reverse.mpr ((mem_sortedFaceIndices m f).mpr hf)
    have h := walkWhile_eq_takeWhile (maxWalkCond m) (sortedFaceIndices m).reverse
      ⟨f, hmem, hc⟩
    show (walkWhile (maxWalkCond m) (sortedFaceIndices m).reverse).isSome = true
    rw [h]
    rfl
  · intro h
    show walkWhile (minWalkCond m) (sortedFaceIndices m) = none
    exact (walkWhile_eq_none_iff _ _).mpr
      (fun f hf => h f ((mem_sortedFaceIndices m f).mp hf))
  · intro h
    show walkWhile (maxWalkCond m) (sortedFaceIndices m).reverse = none
    exact (walkWhile_eq_none_iff _ _).mpr
      (fun f hf => h f ((mem_sortedFaceIndices m f).mp (List.mem_reverse.mp hf)))

/-- C9, witness: on `meshD` both ends have a stopping face and both walks stay
in bounds; on `meshDb` every face passes both tests and both walks run out of
the array. -/
theorem claim_C9_witness :
    ((cutExtremes meshD).1.isSome = true) ∧
    ((cutExtremes meshD).2.isSome = true) ∧
    ((cutExtremes meshDb).1 = none) ∧
    ((cutExtremes meshDb).2 = none) :=
  ⟨(claim_C9 meshD).1 ⟨1, by with_unfolding_all decide, by with_unfolding_all decide⟩,
   (claim_C9 meshD).2.1 ⟨0, by with_unfolding_all decide, by with_unfolding_all decide⟩,
   (claim_C9 meshDb).2.2.1 (by with_unfolding_all decide),
   (claim_C9 meshDb).2.2.2 (by with_unfolding_all decide)⟩

/-- C10: in the ray-shooting scan of one centroid ray over a well-formed mesh
(with the padded bounding-box z range of the outer routine), `maxZFace` stays
`-1` exactly when no intersected face passes the heightfield test from
`(0,0,1)`; hence under the precondition that some intersected face passes it,
the subsequent write `visibility(directionIndex, maxZFace)` happens at a
non-negative index. The same holds for `minZFace` and `(0,0,-1)` whenever the
opposite direction index is non-negative. -/
theorem claim_C10 (m : Mesh) (hwf : m.WF) (barIntersection : List Nat)
    (hmem : ∀ f ∈ barIntersection, f < m.numberFaces) (hfl : ℚ)
    (oppIndex : Int) :
    ((rayScan m hfl (m.bboxMinZ - 1) (m.bboxMaxZ + 1) oppIndex
        barIntersection).maxZFace = -1 ↔
      ∀ f ∈ barIntersection, ¬ hfl ≤ zDirMax.dot (m.faceNormal f)) ∧
    ((∃ f ∈ barIntersection, hfl ≤ zDirMax.dot (m.faceNormal f)) →
      0 ≤ (rayScan m hfl (m.bboxMinZ - 1) (m.bboxMaxZ + 1) oppIndex
        barIntersection).maxZFace) ∧
    (0 ≤ oppIndex →
      (((rayScan m hfl (m.bboxMinZ - 1) (m.bboxMaxZ + 1) oppIndex
          barIntersection).minZFace = -1 ↔
        ∀ f ∈ barIntersection, ¬ hfl ≤ zDirMin.dot (m.faceNormal f)) ∧
      ((∃ f ∈ barIntersection, hfl ≤ zDirMin.dot (m.faceNormal f)) →
        0 ≤ (rayScan m hfl (m.bboxMinZ - 1) (m.bboxMaxZ + 1) oppIndex
          barIntersection).minZFace))) := by
  have hbz : ∀ f ∈ barIntersection, m.bboxMinZ - 1 < (m.barycenter f).z :=
    fun f hf => (m.barycenter_z_bounds hwf f (hmem f hf)).1
  have hbz2 : ∀ f ∈ barIntersection, (m.barycenter f).z < m.bboxMaxZ + 1 :=
    fun f hf => (m.barycenter_z_bounds hwf f (hmem f hf)).2
  have hiffmax := rayFold_max_none_iff m hfl (m.bboxMinZ - 1) oppIndex
    barIntersection ⟨-1, m.bboxMinZ - 1, -1, m.bboxMaxZ + 1⟩ rfl rfl hbz
  have hcasemax := rayFold_max_neg_or m hfl oppIndex barIntersection
    ⟨-1, m.bboxMinZ - 1, -1, m.bboxMaxZ + 1⟩ (Or.inl rfl)
  refine ⟨hiffmax, ?_, ?_⟩
  · rintro ⟨f, hf, hq⟩
    rcases hcasemax with hneg | hpos
    · exact absurd hq (hiffmax.mp hneg f hf)
    · exact hpos
  · intro hop
    have hiffmin := rayFold_min_none_iff m hfl (m.bboxMaxZ + 1) oppIndex hop
      barIntersection ⟨-1, m.bboxMinZ - 1, -1, m.bboxMaxZ + 1⟩ rfl rfl hbz2
    have hcasemin := rayFold_min_neg_or m hfl oppIndex barIntersection
      ⟨-1, m.bboxMinZ - 1, -1, m.bboxMaxZ + 1⟩ (Or.inl rfl)
    refine ⟨hiffmin, ?_⟩
    rintro ⟨f, hf, hq⟩
    rcases hcasemin with hneg | hpos
    · exact absurd hq (hiffmin.mp hneg f hf)
    · exact hpos

/-- C10, witness: on the concrete one-triangle mesh, the intersected face
passes the heightfield test from `(0,0,1)`, so `maxZFace` is non-negative and
the write is in bounds. -/
theorem claim_C10_witness :
    0 ≤ (rayScan meshH (1 / 2) (meshH.bboxMinZ - 1) (meshH.bboxMaxZ + 1) 1
      [0]).maxZFace :=
  (claim_C10 meshH ⟨by with_unfolding_all decide, by with_unfolding_all decide⟩ [0]
    (by with_unfolding_all decide) (1 / 2) 1).2.1
    ⟨0, by with_unfolding_all decide, by with_unfolding_all decide⟩

end FAF

